import Mathlib

/-!
Shallow embedding of the Linux Function App Slot resource adapter
(`internal/services/appservice/linux_function_app_slot_resource.go`) and the
parts of its collaborators that its Create/Read/Update flows depend on.

Machine strings are Lean `String`s; Go string helpers (`strings.Split`,
`strings.HasPrefix`, `strings.TrimPrefix`, `strings.TrimSuffix`,
`strings.ToLower`, `strconv.Atoi`) are re-implemented below on `List Char`
so that every definition is executable and kernel-reducible.

A Go `map[string]string` is modelled as an association list
(`Settings`); a *nilable* Go map is `Option Settings` (Go distinguishes a
nil map, which panics on assignment, from an empty map).
-/

/-! ### Go string primitives -/

/-- Character-level model of `strings.Split` on a single separator character.
Splitting the empty string yields one empty chunk, as in Go. -/
def splitChar (sep : Char) : List Char → List (List Char)
  | [] => [[]]
  | c :: rest =>
    match splitChar sep rest with
    | [] => [[]]
    | g :: gs => if c = sep then [] :: g :: gs else (c :: g) :: gs

/-- Does `cs` start with `p`? Model of `strings.HasPrefix`. -/
def listStartsWith : List Char → List Char → Bool
  | _, [] => true
  | [], _ :: _ => false
  | c :: cs, d :: ds => c = d && listStartsWith cs ds

/-- Does `cs` end with `sfx`? Model of `strings.HasSuffix`. -/
def listEndsWith (cs sfx : List Char) : Bool :=
  listStartsWith cs.reverse sfx.reverse

/-- Model of Go `strings.TrimPrefix`: drop `p` from the front when present,
otherwise return the input unchanged. -/
def goTrimStartList (cs p : List Char) : List Char :=
  if listStartsWith cs p then cs.drop p.length else cs

/-- Model of Go `strings.TrimSuffix`: drop `sfx` from the end when present,
otherwise return the input unchanged. -/
def goTrimEndList (cs sfx : List Char) : List Char :=
  if listEndsWith cs sfx then (cs.reverse.drop sfx.length).reverse else cs

/-- Model of `strings.TrimPrefix` on `String`. -/
def goTrimStart (s p : String) : String :=
  String.mk (goTrimStartList s.toList p.toList)

/-- Model of `strings.TrimSuffix` on `String`. -/
def goTrimEnd (s sfx : String) : String :=
  String.mk (goTrimEndList s.toList sfx.toList)

/-- Model of `strings.HasPrefix` on `String`. -/
def goHasPrefixStr (s p : String) : Bool :=
  listStartsWith s.toList p.toList

/-- ASCII lower-casing of one character (the SKU tiers compared by the code
are ASCII, so this matches `strings.ToLower` on all inputs that occur). -/
def asciiLowerChar (c : Char) : Char :=
  if 'A' ≤ c ∧ c ≤ 'Z' then Char.ofNat (c.toNat + 32) else c

/-- Model of `strings.ToLower` for the ASCII strings this code compares. -/
def asciiLower (s : String) : String :=
  String.mk (s.toList.map asciiLowerChar)

/-- Digits of a decimal literal, or `none` on any non-digit. -/
def decDigits : List Char → Option Nat
  | [] => none
  | [c] => if c.isDigit then some (c.toNat - '0'.toNat) else none
  | c :: rest =>
    if c.isDigit then
      match decDigits rest with
      | some n => some ((c.toNat - '0'.toNat) * 10 ^ rest.length + n)
      | none => none
    else none

/-- Error component of Go `strconv.Atoi`: `ErrSyntax` (malformed number) or
`ErrRange` (value outside the 64-bit signed range). -/
inductive AtoiErr where
  | errInvalid
  | errRange
  deriving DecidableEq, Repr

/-- `math.MaxInt64`, the positive cutoff `strconv.Atoi` clamps to. -/
def maxInt64 : Int := 2 ^ 63 - 1

/-- `math.MinInt64`, the negative cutoff `strconv.Atoi` clamps to. -/
def minInt64 : Int := -(2 ^ 63)

/-- Range step of Go `strconv.ParseInt`: an in-range value passes through
error-free; an out-of-range one is clamped to the nearest 64-bit bound and
flagged `ErrRange` — the clamped value is returned *alongside* the error. -/
def atoiClamp (n : Int) : Int × Option AtoiErr :=
  if n > maxInt64 then (maxInt64, some .errRange)
  else if n < minInt64 then (minInt64, some .errRange)
  else (n, none)

/-- Model of Go `strconv.Atoi` (= `ParseInt` base 10, 64-bit): optional sign
followed by at least one digit. Like Go, a value is returned *together with*
the error component: a malformed string yields `0` with `ErrSyntax`, an
out-of-range number yields the clamped 64-bit bound with `ErrRange`, and the
call site in `unpackLinuxFunctionAppSettings` discards the error and uses the
returned value as is. -/
def atoiGo (s : String) : Int × Option AtoiErr :=
  match s.toList with
  | '+' :: rest =>
    match decDigits rest with
    | some n => atoiClamp (Int.ofNat n)
    | none => (0, some .errInvalid)
  | '-' :: rest =>
    match decDigits rest with
    | some n => atoiClamp (-(Int.ofNat n))
    | none => (0, some .errInvalid)
  | cs =>
    match decDigits cs with
    | some n => atoiClamp (Int.ofNat n)
    | none => (0, some .errInvalid)

/-! ### App settings maps -/

/-- An app-settings map: the contents of a Go `map[string]string`. -/
abbrev Settings := List (String × String)

/-- First value bound to `key`, if any. -/
def lookupKey : Settings → String → Option String
  | [], _ => none
  | (k, v) :: rest, key => if k = key then some v else lookupKey rest key

/-- Go map assignment `m[k] = v` on a non-nil map: replace the existing
binding or append a new one. -/
def setKey : Settings → String → String → Settings
  | [], k, v => [(k, v)]
  | (k', v') :: rest, k, v =>
    if k' = k then (k, v) :: rest else (k', v') :: setKey rest k v

/-- Keys of a settings map. -/
def settingsKeys (s : Settings) : List String := s.map Prod.fst

/-! ### Data model -/

/-- The docker block of the application stack
(`helpers.ApplicationStackDocker`). -/
structure DockerModel where
  registryURL : String := ""
  registryUsername : String := ""
  registryPassword : String := ""
  imageName : String := ""
  imageTag : String := ""
  deriving DecidableEq

/-- One `application_stack` block (`helpers.ApplicationStackLinuxFunctionApp`),
restricted to the fields `unpackLinuxFunctionAppSettings` touches. -/
structure AppStackBlock where
  customHandler : Bool := false
  docker : List DockerModel := []
  deriving DecidableEq

/-- One `site_config` block (`helpers.SiteConfigLinuxFunctionAppSlot`),
restricted to the fields the adapter file itself reads or writes. -/
structure SiteConfigModel where
  linuxFxVersion : String := ""
  appInsightsInstrumentationKey : String := ""
  appInsightsConnectionString : String := ""
  healthCheckEvictionTime : Int := 0
  applicationStack : List AppStackBlock := []
  appServiceLogs : List Unit := []
  deriving DecidableEq

/-- The desired-state record `LinuxFunctionAppSlotModel`, restricted to the
fields the Create/Read/Update flows and the app-settings mapper use.
`appSettings = none` is Go's nil map (no `app_settings` configured). -/
structure SlotModel where
  name : String := ""
  storageAccountName : String := ""
  storageAccountKey : String := ""
  storageUsesMSI : Bool := false
  storageKeyVaultSecretID : String := ""
  appSettings : Option Settings := none
  builtinLogging : Bool := true
  forceDisableContentShare : Bool := false
  functionsExtensionVersion : String := "~4"
  keyVaultReferenceIdentityID : String := ""
  siteConfig : List SiteConfigModel := []
  backup : List Unit := []
  authSettings : List Unit := []
  connectionStrings : List Unit := []
  tags : Settings := []
  enabled : Bool := true
  httpsOnly : Bool := false
  clientCertEnabled : Bool := false
  clientCertMode : String := "Optional"
  deriving DecidableEq

/-- The remote API calls the adapter can issue through the web-apps,
service-plan and ASE clients. -/
inductive ApiCall where
  | getParentSite
  | getServicePlan
  | getSlot
  | getAppServiceEnvironment
  | checkNameAvailability
  | createOrUpdateSlot
  | updateBackupConfigurationSlot
  | deleteBackupConfigurationSlot
  | updateAuthSettingsSlot
  | updateConnectionStringsSlot
  | updateDiagnosticLogsConfigSlot
  | updateConfigurationSlot
  | listApplicationSettings
  | listApplicationSettingsSlot
  | listConnectionStringsSlot
  | listPublishingCredentialsSlot
  | getAuthSettingsSlot
  | getBackupConfigurationSlot
  | getDiagnosticLogsConfigurationSlot
  | getConfigurationSlot
  | deleteSlot
  deriving DecidableEq

/-- A typed error from a REST call; `notFound` records whether the carried
HTTP response was a 404 (`utils.ResponseWasNotFound`). -/
structure HttpError where
  notFound : Bool := false
  deriving DecidableEq

/-- Terminal outcome of one adapter operation. `failure` carries a short tag
identifying which wrapped error message was produced; `panicked` is a Go
runtime panic (nil-map write, nil-pointer dereference, index out of range);
`requiresImport` is `metadata.ResourceRequiresImport`; `gone` is
`metadata.MarkAsGone`. -/
inductive AdapterOutcome where
  | success
  | failure (tag : String)
  | requiresImport
  | gone
  | panicked (msg : String)
  deriving DecidableEq

/-! ### Collaborators modelled from the spec

The helper package (`internal/services/appservice/helpers`) and the
identifier-parser package (`internal/services/appservice/parse`) are not part
of the provided sources; the definitions below model the pieces the adapter
calls, following the spec's description of the Field Mapper (§4.3) and the
Identifier Parser (§4.2). -/

/-- Modelled from the spec: `helpers.StorageStringFmt` — the default storage
connection string "built from account name/key" (§4.3), as instantiated by
the adapter via `fmt.Sprintf(helpers.StorageStringFmt, name, key, suffix)`. -/
def storageStringFmt (name key endpointSuffix : String) : String :=
  "DefaultEndpointsProtocol=https;AccountName=" ++ name ++
    ";AccountKey=" ++ key ++ ";EndpointSuffix=" ++ endpointSuffix

/-- Modelled from the spec: `helpers.StorageStringFmtKV` — the storage
connection "from a secret reference" (§4.3); its shape is pinned by the
adapter's own flatten direction, which trims the literal
`@Microsoft.KeyVault(SecretUri=` prefix and `)` suffix. -/
def storageStringKV (secretID : String) : String :=
  "@Microsoft.KeyVault(SecretUri=" ++ secretID ++ ")"

/-- One step of the part scan in `helpers.ParseWebJobsStorageString`. -/
def storagePartStep (acc : String × String) (part : List Char) : String × String :=
  let acc1 :=
    if listStartsWith part "AccountName".toList then
      (String.mk (goTrimStartList part "AccountName=".toList), acc.2)
    else acc
  if listStartsWith part "AccountKey".toList then
    (acc1.1, String.mk (goTrimStartList part "AccountKey=".toList))
  else acc1

/-- Modelled from the spec: `helpers.ParseWebJobsStorageString` — the flatten
direction of the synthesized storage connection string (§4.3): split on `;`
and recover the account name and key from their `AccountName=` and
`AccountKey=` parts. -/
def parseWebJobsStorageString (v : String) : String × String :=
  (splitChar ';' v.toList).foldl storagePartStep ("", "")

/-- Modelled from the spec: the app-settings portion of
`helpers.ExpandSiteConfigLinuxFunctionAppSlot` — expand "must synthesize
defaults" (§4.3): the functions runtime extension version and the storage
connection (a full connection string, or an account-name setting when the
slot uses a managed identity). -/
def expandSiteConfigAppSettings (version storageString : String) (usesMSI : Bool) : Settings :=
  [("FUNCTIONS_EXTENSION_VERSION", version)] ++
    (if usesMSI then [("AzureWebJobsStorage__accountName", storageString)]
     else [("AzureWebJobsStorage", storageString)])

/-- Modelled from the spec: `helpers.MergeUserAppSettings` — "merge
user-supplied free-form key/value settings with framework-managed ones
without clobbering reserved keys" (§4.3): framework-managed settings win on
their own keys, every other user setting is added. -/
def mergeUserAppSettings (system : Settings) (user : Option Settings) : Settings :=
  (user.getD []).foldl
    (fun acc kv =>
      if (lookupKey system kv.1).isSome then acc else setKey acc kv.1 kv.2)
    system

/-- Modelled from the spec: `helpers.ParseContentSettings` — carries the
service-side content-share settings of the remote app-settings response over
into the desired settings, so an Update does not drop them. -/
def parseContentSettings (resp : Settings) (s : Settings) : Settings :=
  let s1 :=
    match lookupKey resp "WEBSITE_CONTENTSHARE" with
    | some v => setKey s "WEBSITE_CONTENTSHARE" v
    | none => s
  match lookupKey resp "WEBSITE_CONTENTAZUREFILECONNECTIONSTRING" with
  | some v => setKey s1 "WEBSITE_CONTENTAZUREFILECONNECTIONSTRING" v
  | none => s1

/-- A parsed App Service Environment identifier. -/
structure AseId where
  subscriptionId : String
  resourceGroup : String
  hostingEnvironmentName : String
  deriving DecidableEq

/-- Modelled from the spec: `parse.AppServiceEnvironmentID` — the Identifier
Parser (§4.2): an ordered sequence of typed path segments with case-sensitive
literal keywords; "parsing fails closed on any missing/malformed segment".
Go returns a nil pointer together with the error; here failure is `none`. -/
def parseAppServiceEnvironmentID (s : String) : Option AseId :=
  match (splitChar '/' s.toList).map String.mk with
  | ["", "subscriptions", sub, "resourceGroups", rg, "providers",
      "Microsoft.Web", "hostingEnvironments", name] =>
    if sub ≠ "" ∧ rg ≠ "" ∧ name ≠ "" then some ⟨sub, rg, name⟩ else none
  | _ => none

/-- Modelled from the spec: `helpers.EncodeFunctionAppLinuxFxVersion` —
"packing multiple logical fields into one versioned string field" (§4.3);
a docker stack packs to a versioned docker string, otherwise empty. -/
def encodeFunctionAppLinuxFxVersion (stack : List AppStackBlock) : String :=
  match stack with
  | [] => ""
  | b :: _ =>
    match b.docker with
    | [] => ""
    | d :: _ => "DOCKER|" ++ d.imageName ++ ":" ++ d.imageTag

/-- Modelled from the spec: `helpers.DecodeFunctionAppDockerFxString` — the
decode direction of the packed docker FX string; fails on a malformed packed
string, and merges the registry settings collected from app settings. -/
def decodeFunctionAppDockerFxString (fx : String) (partialSettings : DockerModel) :
    Except String DockerModel :=
  match (splitChar '|' fx.toList).map String.mk with
  | ["DOCKER", imageRef] =>
    match (splitChar ':' imageRef.toList).map String.mk with
    | [img, tag] =>
      .ok { partialSettings with imageName := img, imageTag := tag }
    | _ => .error "malformed docker FX string"
  | _ => .error "malformed docker FX string"

/-- Modelled from the spec: `helpers.ExpandBackupConfig` yields a request
whose `BackupRequestProperties` is nil exactly when no `backup` block is
configured (absent sub-state expands to an empty request). -/
def expandBackupHasProps (backup : List Unit) : Bool := !backup.isEmpty

/-- Modelled from the spec: `helpers.ExpandAuthSettings` yields a body whose
`SiteAuthSettingsProperties` is nil exactly when no `auth_settings` block is
configured. -/
def expandAuthHasProps (auth : List Unit) : Bool := !auth.isEmpty

/-- Modelled from the spec: `helpers.ExpandConnectionStrings` yields a body
whose `Properties` map is nil exactly when no `connection_string` block is
configured. -/
def expandConnStringsHasProps (conn : List Unit) : Bool := !conn.isEmpty

/-- Modelled from the spec: `helpers.FlattenBackupConfig` — "absent/null
remote fields map to type-appropriate zero values" (§4.3): a response without
backup properties flattens to an empty backup sub-state. -/
def flattenBackupConfig (hasProps : Bool) : List Unit :=
  if hasProps then [()] else []

/-! ### Create -/

/-- Plan-tier gate for the content-share settings (`Create`, lines 320-332):
`sendContentSettings` starts as the negation of `content_share_force_disabled`
and is switched off for the dynamic, basic, standard and premium tiers
(matched case-insensitively); the elastic tier and unknown tiers leave it. -/
def computeSendContentSettings (forceDisable : Bool) (tier : String) : Bool :=
  let send := !forceDisable
  let t := asciiLower tier
  if t = "dynamic" then false
  else if t = "elastic" then send
  else if t = "basic" then false
  else if t = "standard" then false
  else if t = "premiumv2" then false
  else if t = "premiumv3" then false
  else send

/-- Storage string selection (`Create`, lines 383-390, and the identical
block in `Update`, lines 699-706): the account name itself under managed
identity, otherwise a Key Vault reference or a full connection string. -/
def createStorageString (m : SlotModel) (endpointSuffix : String) : String :=
  if !m.storageUsesMSI then
    if m.storageKeyVaultSecretID ≠ "" then storageStringKV m.storageKeyVaultSecretID
    else storageStringFmt m.storageAccountName m.storageAccountKey endpointSuffix
  else m.storageAccountName

/-- App-settings synthesis in `Create` (lines 396-418): the builtin-logging
dashboard setting (plain or MSI-suffixed), then — only when content settings
are sent — the content-share name (slot name, lower-cased, plus a fresh
suffix) and the content-share connection string, each only when the user has
not set that key. `Create` replaces a nil map by an empty one in both
blocks. -/
def createSynthAppSettings (m : SlotModel) (sendContentSettings : Bool)
    (storageString contentShareSuffix : String) : Option Settings :=
  let s1 : Option Settings :=
    if m.builtinLogging then
      let s := m.appSettings.getD []
      if !m.storageUsesMSI then some (setKey s "AzureWebJobsDashboard" storageString)
      else some (setKey s "AzureWebJobsDashboard__accountName" m.storageAccountName)
    else m.appSettings
  if sendContentSettings then
    let s := s1.getD []
    let s :=
      if (lookupKey s "WEBSITE_CONTENTSHARE").isSome then s
      else setKey s "WEBSITE_CONTENTSHARE" (asciiLower m.name ++ "-" ++ contentShareSuffix)
    let s :=
      if (lookupKey s "WEBSITE_CONTENTAZUREFILECONNECTIONSTRING").isSome then s
      else setKey s "WEBSITE_CONTENTAZUREFILECONNECTIONSTRING" storageString
    some s
  else s1

/-- Result of the availability-name suffix computation for a plan hosted in
an App Service Environment (`Create`, lines 351-373). -/
inductive AseSuffixResult where
  | ok (nameSuffix : String)
  | panicked (msg : String)
  deriving DecidableEq

/-- Availability-name suffix for an ASE-hosted plan (`Create`, lines
351-373). The source dereferences `aseId.HostingEnvironmentName` on the line
*before* it checks the parse error, so a malformed ASE ID (for which the
parser returns a nil pointer alongside the error) is a nil-pointer
dereference. On a successful parse the ASE is fetched; a fetch failure only
logs a warning and keeps the constructed suffix, and a non-empty `DNSSuffix`
in the response replaces it. -/
def aseNameSuffix (aseIdValue : Option String)
    (getAse : Except HttpError (Option String)) : AseSuffixResult :=
  match aseIdValue with
  | none => .ok "appserviceenvironment.net"
  | some idStr =>
    match parseAppServiceEnvironmentID idStr with
    | none => .panicked "invalid memory address or nil pointer dereference"
    | some aseId =>
      let ns := aseId.hostingEnvironmentName ++ "." ++ "appserviceenvironment.net"
      match getAse with
      | .error _ => .ok ns
      | .ok dns =>
        match dns with
        | some d => .ok (if d ≠ "" then d else ns)
        | none => .ok ns

/-- Fields of the parent Linux Function App response that `Create` checks
(lines 299-309): the location and the service-plan ID. -/
structure ParentSiteInfo where
  hasLocation : Bool := true
  serverFarmID : Option String := some "plan"
  deriving DecidableEq

/-- Fields of the service-plan response that `Create` uses: the SKU tier
(`none` when the SKU or its tier is absent, which is an error) and the
hosting-environment profile (`some idOpt` when present, where `idOpt` is its
optional ID). -/
structure ServicePlanInfo where
  skuTier : Option String := some "Dynamic"
  hostingEnvironmentProfile : Option (Option String) := none
  deriving DecidableEq

/-- Results of every collaborator call `Create` makes, in source order.
`getSlotExisting` is the existence check: `.ok` means the GET found the slot
(a 2xx response), `.error e` failed with `e.notFound` saying whether the
response was a 404. -/
structure CreateRemote where
  decode : Except String Unit := .ok ()
  functionAppIdParse : Except String Unit := .ok ()
  getParentSite : Except HttpError ParentSiteInfo := .ok {}
  servicePlanIdParse : Except String Unit := .ok ()
  getServicePlan : Except HttpError ServicePlanInfo := .ok {}
  getSlotExisting : Except HttpError Unit := .error { notFound := true }
  getAse : Except HttpError (Option String) := .ok none
  checkNameAvailability : Except HttpError (Option Bool) := .ok (some true)
  expandSiteConfig : Except String Unit := .ok ()
  expandIdentity : Except String Unit := .ok ()
  createSlot : Except HttpError Unit := .ok ()
  waitCreate : Except HttpError Unit := .ok ()
  updateSlot : Except HttpError Unit := .ok ()
  waitUpdate : Except HttpError Unit := .ok ()
  updateBackup : Except HttpError Unit := .ok ()
  updateAuth : Except HttpError Unit := .ok ()
  updateConnectionStrings : Except HttpError Unit := .ok ()
  appServiceLogsConfigured : Bool := false
  updateDiagnosticLogs : Except HttpError Unit := .ok ()
  contentShareSuffix : String := "abcd"
  endpointSuffix : String := "core.windows.net"

/-- What one `Create` invocation did: the remote calls it issued in order,
its terminal outcome, and — once the site envelope has been built — the
synthesized `app_settings` map that went into it. -/
structure CreateOutput where
  trace : List ApiCall
  outcome : AdapterOutcome
  synthesizedAppSettings : Option (Option Settings)
  deriving DecidableEq

/-- Diagnostic-logs tail of `Create` (lines 486-491). -/
def createSubResourceTail4 (r : CreateRemote) :
    List ApiCall × AdapterOutcome :=
  if r.appServiceLogsConfigured then
    match r.updateDiagnosticLogs with
    | .error _ => ([.updateDiagnosticLogsConfigSlot], .failure "updating App Service Log Settings")
    | .ok _ => ([.updateDiagnosticLogsConfigSlot], .success)
  else ([], .success)

/-- Connection-strings and diagnostic-logs tail of `Create`. -/
def createSubResourceTail3 (m : SlotModel) (r : CreateRemote) :
    List ApiCall × AdapterOutcome :=
  if expandConnStringsHasProps m.connectionStrings then
    match r.updateConnectionStrings with
    | .error _ => ([.updateConnectionStringsSlot], .failure "setting Connection Strings")
    | .ok _ =>
      let rest := createSubResourceTail4 r
      (.updateConnectionStringsSlot :: rest.1, rest.2)
  else createSubResourceTail4 r

/-- Auth-settings, connection-strings and diagnostic-logs tail of `Create`. -/
def createSubResourceTail2 (m : SlotModel) (r : CreateRemote) :
    List ApiCall × AdapterOutcome :=
  if expandAuthHasProps m.authSettings then
    match r.updateAuth with
    | .error _ => ([.updateAuthSettingsSlot], .failure "setting Authorisation Settings")
    | .ok _ =>
      let rest := createSubResourceTail3 m r
      (.updateAuthSettingsSlot :: rest.1, rest.2)
  else createSubResourceTail3 m r

/-- Tail of `Create` from the backup sub-resource call on (lines 465-491):
backup, auth settings and connection strings are issued when their expanded
bodies have properties, the diagnostic-logs call when the configuration has
an `app_service_logs` block. -/
def createSubResourceTail (m : SlotModel) (r : CreateRemote) :
    List ApiCall × AdapterOutcome :=
  if expandBackupHasProps m.backup then
    match r.updateBackup with
    | .error _ => ([.updateBackupConfigurationSlot], .failure "adding Backup Settings")
    | .ok _ =>
      let rest := createSubResourceTail2 m r
      (.updateBackupConfigurationSlot :: rest.1, rest.2)
  else createSubResourceTail2 m r

/-- Continuation of `Create` from the name-availability check (line 375) to
the end: availability check, storage string, site-config expansion, the
app-settings synthesis, the envelope build (which dereferences
`SiteConfig[0]`, line 420), identity expansion, the two create/update calls
with their waits, and the dependent sub-resource calls. `t` is the trace
accumulated so far. -/
def createAvailabilityOn (m : SlotModel) (r : CreateRemote) (t : List ApiCall)
    (sendContentSettings : Bool) : CreateOutput :=
  let t1 := t ++ [.checkNameAvailability]
  match r.checkNameAvailability with
  | .error _ => ⟨t1, .failure "checking name availability", none⟩
  | .ok avail =>
    if avail = some false then ⟨t1, .failure "availability check failed", none⟩
    else
      let storageString := createStorageString m r.endpointSuffix
      match r.expandSiteConfig with
      | .error _ => ⟨t1, .failure "expanding site_config", none⟩
      | .ok _ =>
        let synth := createSynthAppSettings m sendContentSettings storageString
          r.contentShareSuffix
        match m.siteConfig with
        | [] => ⟨t1, .panicked "index out of range", none⟩
        | _ :: _ =>
          match r.expandIdentity with
          | .error _ => ⟨t1, .failure "expanding identity", none⟩
          | .ok _ =>
            let t2 := t1 ++ [.createOrUpdateSlot]
            match r.createSlot with
            | .error _ => ⟨t2, .failure "creating", some synth⟩
            | .ok _ =>
              match r.waitCreate with
              | .error _ => ⟨t2, .failure "waiting for creation", some synth⟩
              | .ok _ =>
                let t3 := t2 ++ [.createOrUpdateSlot]
                match r.updateSlot with
                | .error _ => ⟨t3, .failure "updating properties", some synth⟩
                | .ok _ =>
                  match r.waitUpdate with
                  | .error _ => ⟨t3, .failure "waiting for creation", some synth⟩
                  | .ok _ =>
                    let tail := createSubResourceTail m r
                    ⟨t3 ++ tail.1, tail.2, some synth⟩

/-- Continuation of `Create` once the existence check has passed (line 346
on): the availability request name, including the ASE suffix computation for
plans hosted in an App Service Environment. -/
def createAfterExistence (m : SlotModel) (r : CreateRemote)
    (plan : ServicePlanInfo) (sendContentSettings : Bool) : CreateOutput :=
  let t0 : List ApiCall := [.getParentSite, .getServicePlan, .getSlot]
  match plan.hostingEnvironmentProfile with
  | some aseIdOpt =>
    match aseNameSuffix aseIdOpt r.getAse with
    | .panicked msg => ⟨t0, .panicked msg, none⟩
    | .ok _ =>
      let aseCalls : List ApiCall :=
        match aseIdOpt with
        | some _ => [.getAppServiceEnvironment]
        | none => []
      createAvailabilityOn m r (t0 ++ aseCalls) sendContentSettings
  | none => createAvailabilityOn m r t0 sendContentSettings

/-- The `Create` operation (lines 278-497): decode, parent lookup, service
plan resolution, the content-settings tier gate, the existence check with its
requires-import return, and the rest of the flow via
`createAfterExistence`. -/
def create (m : SlotModel) (r : CreateRemote) : CreateOutput :=
  match r.decode with
  | .error e => ⟨[], .failure e, none⟩
  | .ok _ =>
    match r.functionAppIdParse with
    | .error e => ⟨[], .failure e, none⟩
    | .ok _ =>
      match r.getParentSite with
      | .error _ => ⟨[.getParentSite], .failure "retrieving parent", none⟩
      | .ok parent =>
        if !parent.hasLocation then
          ⟨[.getParentSite], .failure "could not determine location", none⟩
        else
          match parent.serverFarmID with
          | none => ⟨[.getParentSite], .failure "could not determine Service Plan ID", none⟩
          | some _ =>
            match r.servicePlanIdParse with
            | .error e => ⟨[.getParentSite], .failure e, none⟩
            | .ok _ =>
              match r.getServicePlan with
              | .error _ =>
                ⟨[.getParentSite, .getServicePlan], .failure "reading service plan", none⟩
              | .ok plan =>
                match plan.skuTier with
                | none =>
                  ⟨[.getParentSite, .getServicePlan], .failure "determining plan type", none⟩
                | some tier =>
                  let sendContentSettings :=
                    computeSendContentSettings m.forceDisableContentShare tier
                  let t0 : List ApiCall := [.getParentSite, .getServicePlan, .getSlot]
                  match r.getSlotExisting with
                  | .error e =>
                    if !e.notFound then ⟨t0, .failure "checking for presence", none⟩
                    else createAfterExistence m r plan sendContentSettings
                  | .ok _ => ⟨t0, .requiresImport, none⟩

/-! ### Flatten: unpackLinuxFunctionAppSettings -/

/-- Model of `metadata.ResourceData.GetOk("app_settings." ++ k)`: the user
configuration has that app-settings key with a non-zero (non-empty) value. -/
def configGetOkAppSetting (cfg : Option Settings) (k : String) : Bool :=
  match cfg with
  | none => false
  | some s =>
    match lookupKey s k with
    | some v => v ≠ ""
    | none => false

/-- Update of `m.SiteConfig[0]`. The source indexes element 0 directly; every
caller (`Read`) has stored a one-element `site_config` list immediately
before, so the list is never empty there. -/
def updateSiteConfigHead (m : SlotModel) (f : SiteConfigModel → SiteConfigModel) : SlotModel :=
  match m.siteConfig with
  | [] => m
  | sc :: rest => { m with siteConfig := f sc :: rest }

/-- Accumulator of the loop in `unpackLinuxFunctionAppSettings`: the model
being filled, the `appSettings` map built by the loop, and the docker
registry settings collected on the side. -/
structure UnpackAcc where
  m : SlotModel
  collected : Settings
  docker : DockerModel
  deriving DecidableEq

/-- One iteration of the `for k, v := range input.Properties` loop of
`unpackLinuxFunctionAppSettings` (lines 809-883), with the same case list in
the same order. The `WEBSITE_HEALTHCHECK_MAXPINGFAILURES` case discards the
`strconv.Atoi` error with `i, _ :=` and stores whatever `i` holds (`0` after
a malformed string, the clamped 64-bit bound after a range overflow). -/
def unpackStep (cfg : Option Settings) (st : UnpackAcc) (kv : String × String) : UnpackAcc :=
  let k := kv.1
  let v := kv.2
  if k = "FUNCTIONS_EXTENSION_VERSION" then
    { st with m := { st.m with functionsExtensionVersion := v } }
  else if k = "WEBSITE_NODE_DEFAULT_VERSION" then st
  else if k = "WEBSITE_CONTENTAZUREFILECONNECTIONSTRING" then
    if configGetOkAppSetting cfg k then { st with collected := setKey st.collected k v }
    else st
  else if k = "WEBSITE_CONTENTSHARE" then
    if configGetOkAppSetting cfg k then { st with collected := setKey st.collected k v }
    else st
  else if k = "WEBSITE_HTTPLOGGING_RETENTION_DAYS" then st
  else if k = "FUNCTIONS_WORKER_RUNTIME" then
    let m1 :=
      match st.m.siteConfig with
      | sc :: rest =>
        if sc.applicationStack.isEmpty && v = "custom" then
          { st.m with
              siteConfig := { sc with applicationStack := [{ customHandler := true }] } :: rest }
        else st.m
      | [] => st.m
    let c1 := if configGetOkAppSetting cfg k then setKey st.collected k v else st.collected
    { st with m := m1, collected := c1 }
  else if k = "DOCKER_REGISTRY_SERVER_URL" then
    { st with docker := { st.docker with registryURL := v } }
  else if k = "DOCKER_REGISTRY_SERVER_USERNAME" then
    { st with docker := { st.docker with registryUsername := v } }
  else if k = "DOCKER_REGISTRY_SERVER_PASSWORD" then
    { st with docker := { st.docker with registryPassword := v } }
  else if k = "APPINSIGHTS_INSTRUMENTATIONKEY" then
    { st with m := (updateSiteConfigHead st.m
        (fun sc => { sc with appInsightsInstrumentationKey := v })) }
  else if k = "APPLICATIONINSIGHTS_CONNECTION_STRING" then
    { st with m := (updateSiteConfigHead st.m
        (fun sc => { sc with appInsightsConnectionString := v })) }
  else if k = "AzureWebJobsStorage" then
    if goHasPrefixStr v "@Microsoft.KeyVault" then
      { st with m := { st.m with
          storageKeyVaultSecretID :=
            goTrimStart (goTrimEnd v ")") "@Microsoft.KeyVault(SecretUri=" } }
    else
      let nk := parseWebJobsStorageString v
      { st with m := { st.m with storageAccountName := nk.1, storageAccountKey := nk.2 } }
  else if k = "AzureWebJobsDashboard" then
    { st with m := { st.m with builtinLogging := true } }
  else if k = "WEBSITE_HEALTHCHECK_MAXPINGFAILURES" then
    { st with m := (updateSiteConfigHead st.m
        (fun sc => { sc with healthCheckEvictionTime := (atoiGo v).1 })) }
  else if k = "AzureWebJobsStorage__accountName" then
    { st with m := { st.m with storageUsesMSI := true, storageAccountName := v } }
  else if k = "AzureWebJobsDashboard__accountName" then
    { st with m := { st.m with builtinLogging := true } }
  else if k = "WEBSITE_RUN_FROM_PACKAGE" then
    if configGetOkAppSetting cfg k then { st with collected := setKey st.collected k v }
    else st
  else
    { st with collected := setKey st.collected k v }

/-- The flatten direction `unpackLinuxFunctionAppSettings` (lines 800-893):
a nil properties map returns the model unchanged; otherwise a fresh
`appSettings` map is built while the specially-handled keys are dispatched
into model fields (`BuiltinLogging` is reset to false first), the docker
application stack is rebuilt when a registry URL was seen (the decode error
of the packed FX string is discarded with `docker, _ :=`), and the collected
map replaces `m.AppSettings`. -/
def unpackLinuxFunctionAppSettings (m : SlotModel) (cfg : Option Settings)
    (input : Option Settings) : SlotModel :=
  match input with
  | none => m
  | some props =>
    let st := props.foldl (unpackStep cfg) ⟨{ m with builtinLogging := false }, [], {}⟩
    let m2 :=
      if st.docker.registryURL ≠ "" then
        let fx := ((st.m.siteConfig.head?).map SiteConfigModel.linuxFxVersion).getD ""
        let d :=
          match decodeFunctionAppDockerFxString fx st.docker with
          | .ok d2 => d2
          | .error _ => st.docker
        updateSiteConfigHead st.m
          (fun sc => { sc with applicationStack := [{ customHandler := false, docker := [d] }] })
      else st.m
    { m2 with appSettings := some st.collected }

/-! ### Read -/

/-- Results of every collaborator call `Read` makes, in source order. The
`getSlot` value says whether the response carried `SiteProperties`; the
`getBackup` value says whether the backup response carried properties. -/
structure ReadRemote where
  idParse : Except String Unit := .ok ()
  getSlot : Except HttpError Bool := .ok true
  listAppSettings : Except HttpError (Option Settings) := .ok (some [])
  listConnStrings : Except HttpError Unit := .ok ()
  listPublishingCredentials : Except HttpError Unit := .ok ()
  waitPublishingCredentials : Except HttpError Unit := .ok ()
  publishingCredentialsResult : Except HttpError Unit := .ok ()
  getAuthSettings : Except HttpError Unit := .ok ()
  getBackup : Except HttpError Bool := .ok false
  getDiagnosticLogs : Except HttpError Unit := .ok ()
  getConfiguration : Except HttpError Unit := .ok ()
  flattenSiteConfig : Except String SiteConfigModel := .ok {}
  encode : Except String Unit := .ok ()
  flattenIdentity : Except String Unit := .ok ()
  setIdentity : Except String Unit := .ok ()

/-- What one `Read` invocation did: the calls issued, the terminal outcome,
and the reconciled state on success. -/
structure ReadOutput where
  trace : List ApiCall
  outcome : AdapterOutcome
  state : Option SlotModel
  deriving DecidableEq

/-- The fresh state literal `Read` builds (lines 561-572): a Go composite
literal, so every field not listed holds its zero value — in particular
`BuiltinLogging` is false, the extension version is empty and the
app-settings map is nil. -/
def readBaseState : SlotModel :=
  { name := "", storageAccountName := "", storageAccountKey := "",
    storageUsesMSI := false, storageKeyVaultSecretID := "", appSettings := none,
    builtinLogging := false, forceDisableContentShare := false,
    functionsExtensionVersion := "", keyVaultReferenceIdentityID := "",
    siteConfig := [], backup := [], authSettings := [], connectionStrings := [],
    tags := [], enabled := false, httpsOnly := false, clientCertEnabled := false,
    clientCertMode := "" }

/-- Continuation of `Read` from the diagnostic-logs fetch on (lines
556-612): logs fetch, state literal, configuration fetch, site-config
flatten, the app-settings unpack, the dependent-state flattens (the backup
response flattens through its property presence), and the final encode and
identity steps. -/
def readFlattenOn (cfg : Option Settings) (r : ReadRemote) (t : List ApiCall)
    (appSettingsResp : Option Settings) (backupHasProps : Bool) : ReadOutput :=
  let t6 := t ++ [.getDiagnosticLogsConfigurationSlot]
  match r.getDiagnosticLogs with
  | .error _ => ⟨t6, .failure "reading logs configuration", none⟩
  | .ok _ =>
  let t7 := t6 ++ [.getConfigurationSlot]
  match r.getConfiguration with
  | .error _ => ⟨t7, .failure "making Read request on Function App Configuration", none⟩
  | .ok _ =>
  match r.flattenSiteConfig with
  | .error _ => ⟨t7, .failure "reading Site Config", none⟩
  | .ok sc =>
  let state := { readBaseState with siteConfig := [sc] }
  let state := unpackLinuxFunctionAppSettings state cfg appSettingsResp
  let state := { state with backup := flattenBackupConfig backupHasProps }
  match r.encode with
  | .error _ => ⟨t7, .failure "encoding", none⟩
  | .ok _ =>
  match r.flattenIdentity with
  | .error _ => ⟨t7, .failure "flattening identity", none⟩
  | .ok _ =>
  match r.setIdentity with
  | .error _ => ⟨t7, .failure "setting identity", none⟩
  | .ok _ => ⟨t7, .success, some state⟩

/-- The `Read` operation (lines 499-615). A not-found on the primary slot
GET is `MarkAsGone`; any other GET failure is a wrapped error. Every
dependent fetch failure is returned immediately, except the backup fetch,
whose not-found is tolerated (lines 549-554) and flattens to an empty backup
sub-state. `cfg` is the prior configuration consulted by
`unpackLinuxFunctionAppSettings` through `GetOk`. -/
def readSlot (cfg : Option Settings) (r : ReadRemote) : ReadOutput :=
  match r.idParse with
  | .error e => ⟨[], .failure e, none⟩
  | .ok _ =>
  match r.getSlot with
  | .error e =>
    if e.notFound then ⟨[.getSlot], .gone, none⟩
    else ⟨[.getSlot], .failure "reading", none⟩
  | .ok hasProps =>
  if !hasProps then ⟨[.getSlot], .failure "reading properties", none⟩
  else
  let t1 : List ApiCall := [.getSlot, .listApplicationSettingsSlot]
  match r.listAppSettings with
  | .error _ => ⟨t1, .failure "reading App Settings", none⟩
  | .ok appSettingsResp =>
  let t2 := t1 ++ [.listConnectionStringsSlot]
  match r.listConnStrings with
  | .error _ => ⟨t2, .failure "reading Connection String information", none⟩
  | .ok _ =>
  let t3 := t2 ++ [.listPublishingCredentialsSlot]
  match r.listPublishingCredentials with
  | .error _ => ⟨t3, .failure "listing Site Publishing Credential information", none⟩
  | .ok _ =>
  match r.waitPublishingCredentials with
  | .error _ => ⟨t3, .failure "waiting for Site Publishing Credential information", none⟩
  | .ok _ =>
  match r.publishingCredentialsResult with
  | .error _ => ⟨t3, .failure "reading Site Publishing Credential information", none⟩
  | .ok _ =>
  let t4 := t3 ++ [.getAuthSettingsSlot]
  match r.getAuthSettings with
  | .error _ => ⟨t4, .failure "reading Auth Settings", none⟩
  | .ok _ =>
  let t5 := t4 ++ [.getBackupConfigurationSlot]
  match r.getBackup with
  | .error e =>
    if !e.notFound then ⟨t5, .failure "reading Backup Settings", none⟩
    else readFlattenOn cfg r t5 appSettingsResp false
  | .ok backupHasProps => readFlattenOn cfg r t5 appSettingsResp backupHasProps

/-! ### Update -/

/-- The change set driving `Update`: one flag per
`metadata.ResourceData.HasChange(...)` query the operation makes. -/
structure UpdateChanges where
  enabled : Bool := false
  httpsOnly : Bool := false
  clientCertEnabled : Bool := false
  clientCertMode : Bool := false
  identity : Bool := false
  keyVaultReferenceIdentityId : Bool := false
  tags : Bool := false
  siteConfig : Bool := false
  applicationStack : Bool := false
  connectionString : Bool := false
  authSettings : Bool := false
  backup : Bool := false
  appServiceLogs : Bool := false
  deriving DecidableEq

/-- Results of every collaborator call `Update` makes, in source order.
`servicePlanInfo` carries the value of `helpers.PlanIsElastic(planSKU)` for
the resolved plan. -/
structure UpdateRemote where
  idParse : Except String Unit := .ok ()
  decode : Except String Unit := .ok ()
  getSlot : Except HttpError Unit := .ok ()
  servicePlanInfo : Except String Bool := .ok false
  expandIdentity : Except String Unit := .ok ()
  listAppSettings : Except HttpError Settings := .ok []
  expandSiteConfig : Except String Unit := .ok ()
  updateSlot : Except HttpError Unit := .ok ()
  waitUpdate : Except HttpError Unit := .ok ()
  updateConfiguration : Except HttpError Unit := .ok ()
  updateConnStrings : Except HttpError Unit := .ok ()
  updateAuth : Except HttpError Unit := .ok ()
  updateBackup : Except HttpError Unit := .ok ()
  deleteBackup : Except HttpError Unit := .ok ()
  updateDiagnosticLogs : Except HttpError Unit := .ok ()
  endpointSuffix : String := "core.windows.net"

/-- What one `Update` invocation did: the remote calls it issued in order and
its terminal outcome. -/
structure UpdateOutput where
  trace : List ApiCall
  outcome : AdapterOutcome
  deriving DecidableEq

/-- Diagnostic-logs tail of `Update` (lines 788-793), gated by the
`site_config.0.app_service_logs` change flag; the expansion reads
`state.SiteConfig[0]`. -/
def updateTailLogs (chg : UpdateChanges) (state : SlotModel) (r : UpdateRemote) :
    List ApiCall × AdapterOutcome :=
  if chg.appServiceLogs then
    match state.siteConfig with
    | [] => ([], .panicked "index out of range")
    | _ :: _ =>
      match r.updateDiagnosticLogs with
      | .error _ =>
        ([.updateDiagnosticLogsConfigSlot], .failure "updating App Service Log Settings")
      | .ok _ => ([.updateDiagnosticLogsConfigSlot], .success)
  else ([], .success)

/-- Backup tail of `Update` (lines 775-786), gated by the `backup` change
flag: an emptied backup block issues the delete call, otherwise the update
call. -/
def updateTailBackup (chg : UpdateChanges) (state : SlotModel) (r : UpdateRemote) :
    List ApiCall × AdapterOutcome :=
  if chg.backup then
    if !expandBackupHasProps state.backup then
      match r.deleteBackup with
      | .error _ => ([.deleteBackupConfigurationSlot], .failure "removing Backup Settings")
      | .ok _ =>
        let rest := updateTailLogs chg state r
        (.deleteBackupConfigurationSlot :: rest.1, rest.2)
    else
      match r.updateBackup with
      | .error _ => ([.updateBackupConfigurationSlot], .failure "updating Backup Settings")
      | .ok _ =>
        let rest := updateTailLogs chg state r
        (.updateBackupConfigurationSlot :: rest.1, rest.2)
  else updateTailLogs chg state r

/-- Auth-settings tail of `Update` (lines 768-773), gated by the
`auth_settings` change flag. -/
def updateTailAuth (chg : UpdateChanges) (state : SlotModel) (r : UpdateRemote) :
    List ApiCall × AdapterOutcome :=
  if chg.authSettings then
    match r.updateAuth with
    | .error _ => ([.updateAuthSettingsSlot], .failure "updating Auth Settings")
    | .ok _ =>
      let rest := updateTailBackup chg state r
      (.updateAuthSettingsSlot :: rest.1, rest.2)
  else updateTailBackup chg state r

/-- Connection-strings tail of `Update` (lines 758-766), gated by the
`connection_string` change flag. -/
def updateTailConn (chg : UpdateChanges) (state : SlotModel) (r : UpdateRemote) :
    List ApiCall × AdapterOutcome :=
  if chg.connectionString then
    match r.updateConnStrings with
    | .error _ => ([.updateConnectionStringsSlot], .failure "updating Connection Strings")
    | .ok _ =>
      let rest := updateTailAuth chg state r
      (.updateConnectionStringsSlot :: rest.1, rest.2)
  else updateTailAuth chg state r

/-- Tail of `Update` from the merge of line 744 on: the source dereferences
the expanded `siteConfig` pointer there, so when the expansion of line 720
failed (nil result) and the `site_config` flag was unset (so line 734 did not
return the held error), this is a nil-pointer dereference. Then the primary
full-document PUT, its wait, the *unconditional* site-config update call
(line 754), and the flag-gated sub-resource tails. -/
def updateMergeOn (chg : UpdateChanges) (state : SlotModel) (r : UpdateRemote)
    (t : List ApiCall) : UpdateOutput :=
  match r.expandSiteConfig with
  | .error _ => ⟨t, .panicked "invalid memory address or nil pointer dereference"⟩
  | .ok _ =>
  let t1 := t ++ [.createOrUpdateSlot]
  match r.updateSlot with
  | .error _ => ⟨t1, .failure "updating"⟩
  | .ok _ =>
  match r.waitUpdate with
  | .error _ => ⟨t1, .failure "waiting to update"⟩
  | .ok _ =>
  let t2 := t1 ++ [.updateConfigurationSlot]
  match r.updateConfiguration with
  | .error _ => ⟨t2, .failure "updating Site Config"⟩
  | .ok _ =>
  let tail := updateTailConn chg state r
  ⟨t2 ++ tail.1, tail.2⟩

/-- The `site_config.0.application_stack` gate of `Update` (lines 740-742):
re-encoding the FX version reads `state.SiteConfig[0]`. -/
def updateStackOn (chg : UpdateChanges) (state : SlotModel) (r : UpdateRemote)
    (t : List ApiCall) : UpdateOutput :=
  if chg.applicationStack then
    match state.siteConfig with
    | [] => ⟨t, .panicked "index out of range"⟩
    | _ :: _ => updateMergeOn chg state r t
  else updateMergeOn chg state r t

/-- The `site_config` gate of `Update` (lines 733-738): only here is the
error held from the expansion of line 720 checked and returned. -/
def updateAfterLogging (chg : UpdateChanges) (state : SlotModel) (r : UpdateRemote)
    (t : List ApiCall) : UpdateOutput :=
  if chg.siteConfig then
    match r.expandSiteConfig with
    | .error _ => ⟨t, .failure "expanding Site Config"⟩
    | .ok _ => updateStackOn chg state r t
  else updateStackOn chg state r t

/-- The builtin-logging block of `Update` (lines 721-731). The nil-map
guard `state.AppSettings == nil && !state.StorageUsesMSI` only replaces a nil
map in the non-MSI branch, so under a managed identity the MSI-suffixed
dashboard key is written into whatever map is there — a Go panic when it is
nil. -/
def updateLoggingOn (chg : UpdateChanges) (state : SlotModel) (r : UpdateRemote)
    (t : List ApiCall) (storageString : String) : UpdateOutput :=
  if state.builtinLogging then
    let s :=
      if state.appSettings = none ∧ !state.storageUsesMSI then some ([] : Settings)
      else state.appSettings
    if !state.storageUsesMSI then
      match s with
      | none => ⟨t, .panicked "assignment to entry in nil map"⟩
      | some m0 =>
        updateAfterLogging chg
          { state with appSettings := some (setKey m0 "AzureWebJobsDashboard" storageString) } r t
    else
      match s with
      | none => ⟨t, .panicked "assignment to entry in nil map"⟩
      | some m0 =>
        updateAfterLogging chg
          { state with
              appSettings :=
                some (setKey m0 "AzureWebJobsDashboard__accountName" state.storageAccountName) } r t
  else updateAfterLogging chg state r t

/-- The content-settings block of `Update` (lines 708-717): only when
content settings are sent does the operation fetch the current app settings,
replace a nil desired map by an empty one, and carry the service-side
content settings over. -/
def updateContentOn (chg : UpdateChanges) (state : SlotModel) (r : UpdateRemote)
    (sendContentSettings : Bool) : UpdateOutput :=
  let storageString := createStorageString state r.endpointSuffix
  if sendContentSettings then
    match r.listAppSettings with
    | .error _ => ⟨[.getSlot, .listApplicationSettings], .failure "reading App Settings"⟩
    | .ok resp =>
      let s1 := some (parseContentSettings resp (state.appSettings.getD []))
      updateLoggingOn chg { state with appSettings := s1 } r
        [.getSlot, .listApplicationSettings] storageString
  else updateLoggingOn chg state r [.getSlot] storageString

/-- The `Update` operation (lines 639-796): decode and ID parse, the fetch
of the current remote document, the plan-elasticity gate, the flag-gated
field writes on the fetched document (the `identity` flag triggers its
fallible expansion), and the rest of the flow via `updateContentOn`. -/
def update (chg : UpdateChanges) (state : SlotModel) (r : UpdateRemote) : UpdateOutput :=
  match r.idParse with
  | .error e => ⟨[], .failure e⟩
  | .ok _ =>
  match r.decode with
  | .error _ => ⟨[], .failure "decoding"⟩
  | .ok _ =>
  match r.getSlot with
  | .error _ => ⟨[.getSlot], .failure "reading"⟩
  | .ok _ =>
  match r.servicePlanInfo with
  | .error e => ⟨[.getSlot], .failure e⟩
  | .ok planIsElastic =>
  let sendContentSettings := !planIsElastic
  if chg.identity then
    match r.expandIdentity with
    | .error _ => ⟨[.getSlot], .failure "expanding identity"⟩
    | .ok _ => updateContentOn chg state r sendContentSettings
  else updateContentOn chg state r sendContentSettings

/-! ### Map lemmas -/

/-- Setting a key makes it present with that value. -/
theorem lookupKey_setKey_same (s : Settings) (k v : String) :
    lookupKey (setKey s k v) k = some v := by
  induction s with
  | nil => simp [setKey, lookupKey]
  | cons hd tl ih =>
    by_cases h : hd.1 = k
    · simp [setKey, h, lookupKey]
    · simp [setKey, h, lookupKey, ih]

/-- Setting one key leaves every other key unchanged. -/
theorem lookupKey_setKey_ne (s : Settings) (k k' v : String) (h : k ≠ k') :
    lookupKey (setKey s k v) k' = lookupKey s k' := by
  induction s with
  | nil => simp [setKey, lookupKey, h]
  | cons hd tl ih =>
    by_cases h1 : hd.1 = k
    · simp [setKey, h1, lookupKey, h, Ne.symm h]
    · simp [setKey, h1, lookupKey, ih]

/-! ### Create: characterization of the synthesized app settings -/

/-- Whenever `create` reaches the site envelope, the `app_settings` map it
synthesized is exactly `createSynthAppSettings` at the tier-derived
content-settings gate, the selected storage string and the fresh content
share suffix. -/
theorem create_synth_spec (m : SlotModel) (r : CreateRemote) (plan : ServicePlanInfo)
    (tier : String) (s : Option Settings)
    (hplan : r.getServicePlan = .ok plan) (htier : plan.skuTier = some tier)
    (hs : (create m r).synthesizedAppSettings = some s) :
    s = createSynthAppSettings m (computeSendContentSettings m.forceDisableContentShare tier)
      (createStorageString m r.endpointSuffix) r.contentShareSuffix := by
  unfold create createAfterExistence createAvailabilityOn at hs
  iterate 30 (all_goals try split at hs)
  all_goals simp_all [CreateOutput.mk.injEq]

/-- Looking up a key other than the conditionally-set one ignores the
conditional `if not present then set` step used by the content-settings
synthesis. -/
theorem lookupKey_condSet (s : Settings) (ck k v : String) (h : ck ≠ k) :
    lookupKey (if (lookupKey s ck).isSome then s else setKey s ck v) k = lookupKey s k := by
  split
  · rfl
  · exact lookupKey_setKey_ne s ck k v h

/-- Looking up a key other than the conditionally-set one, for an arbitrary
condition. -/
theorem lookupKey_ite_setKey (c : Prop) [Decidable c] (s : Settings) (ck k v : String)
    (h : ck ≠ k) :
    lookupKey (if c then s else setKey s ck v) k = lookupKey s k := by
  split
  · rfl
  · exact lookupKey_setKey_ne s ck k v h

/-- C2: when the existence check's GET finds the slot (it returns without a
not-found), `Create` returns the resource-requires-import outcome and the
create call is never issued, so an existing remote resource is never
silently overwritten. The earlier hypotheses state that control reaches the
existence check (decode, parent fetch, location and plan-ID presence, plan
fetch and tier resolution all succeed). -/
theorem c2_create_requires_import (m : SlotModel) (r : CreateRemote)
    (p : ParentSiteInfo) (plan : ServicePlanInfo) (f tier : String)
    (h1 : r.decode = .ok ()) (h2 : r.functionAppIdParse = .ok ())
    (h3 : r.getParentSite = .ok p) (h4 : p.hasLocation = true)
    (h5 : p.serverFarmID = some f) (h6 : r.servicePlanIdParse = .ok ())
    (h7 : r.getServicePlan = .ok plan) (h8 : plan.skuTier = some tier)
    (h9 : r.getSlotExisting = .ok ()) :
    (create m r).outcome = .requiresImport ∧
      ApiCall.createOrUpdateSlot ∉ (create m r).trace := by
  unfold create
  simp [h1, h2, h3, h4, h5, h6, h7, h8, h9]

/-- Witness for C2 at a concrete remote whose existence GET finds the slot. -/
theorem c2_create_requires_import_witness :
    (create { siteConfig := [{}] } { getSlotExisting := .ok () }).outcome = .requiresImport ∧
      ApiCall.createOrUpdateSlot ∉ (create { siteConfig := [{}] } { getSlotExisting := .ok () }).trace :=
  c2_create_requires_import _ _ {} {} "plan" "Dynamic" rfl rfl rfl rfl rfl rfl rfl rfl rfl

/-- C3: a `Create` with managed-identity storage and builtin logging enabled
synthesizes only the MSI-suffixed dashboard key, holding the storage account
name, and never adds the plain `AzureWebJobsDashboard` key (the
user-supplied settings are assumed not to set that reserved key
themselves). -/
theorem c3_msi_dashboard_key (m : SlotModel) (r : CreateRemote)
    (plan : ServicePlanInfo) (tier : String) (s : Option Settings)
    (hplan : r.getServicePlan = .ok plan) (htier : plan.skuTier = some tier)
    (hmsi : m.storageUsesMSI = true) (hlog : m.builtinLogging = true)
    (huser : lookupKey (m.appSettings.getD []) "AzureWebJobsDashboard" = none)
    (hs : (create m r).synthesizedAppSettings = some s) :
    lookupKey (s.getD []) "AzureWebJobsDashboard" = none ∧
    lookupKey (s.getD []) "AzureWebJobsDashboard__accountName" = some m.storageAccountName := by
  have hspec := create_synth_spec m r plan tier s hplan htier hs
  subst hspec
  unfold createSynthAppSettings
  by_cases hsend : computeSendContentSettings m.forceDisableContentShare tier = true <;>
    simp [hsend, hlog, hmsi, lookupKey_ite_setKey, lookupKey_setKey_ne,
      lookupKey_setKey_same, huser]

/-- Concrete record for the C3 witness. -/
def c3Model : SlotModel :=
  { siteConfig := [{}], storageAccountName := "acct1", storageUsesMSI := true }

/-- Witness for C3: managed identity with builtin logging at a concrete
record. -/
theorem c3_msi_dashboard_key_witness :
    lookupKey (((create c3Model {}).synthesizedAppSettings.getD none).getD [])
      "AzureWebJobsDashboard" = none ∧
    lookupKey (((create c3Model {}).synthesizedAppSettings.getD none).getD [])
      "AzureWebJobsDashboard__accountName" = some "acct1" :=
  c3_msi_dashboard_key c3Model {} {} "Dynamic"
    ((create c3Model {}).synthesizedAppSettings.getD none)
    rfl rfl rfl rfl rfl rfl

/-- C4: a `Create` whose resolved service-plan SKU tier lower-cases to
`dynamic` never synthesizes the `WEBSITE_CONTENTSHARE` and
`WEBSITE_CONTENTAZUREFILECONNECTIONSTRING` settings: both keys are exactly
as present or absent in the user-supplied settings, for every value of
`content_share_force_disabled` (the record `m` is universally quantified,
so both values of `m.forceDisableContentShare` are covered). -/
theorem c4_dynamic_tier_no_content_settings (m : SlotModel) (r : CreateRemote)
    (plan : ServicePlanInfo) (tier : String) (s : Option Settings)
    (hplan : r.getServicePlan = .ok plan) (htier : plan.skuTier = some tier)
    (hdyn : asciiLower tier = "dynamic")
    (hs : (create m r).synthesizedAppSettings = some s) :
    lookupKey (s.getD []) "WEBSITE_CONTENTSHARE" =
      lookupKey (m.appSettings.getD []) "WEBSITE_CONTENTSHARE" ∧
    lookupKey (s.getD []) "WEBSITE_CONTENTAZUREFILECONNECTIONSTRING" =
      lookupKey (m.appSettings.getD []) "WEBSITE_CONTENTAZUREFILECONNECTIONSTRING" := by
  have hsend : computeSendContentSettings m.forceDisableContentShare tier = false := by
    unfold computeSendContentSettings
    simp [hdyn]
  have hspec := create_synth_spec m r plan tier s hplan htier hs
  subst hspec
  unfold createSynthAppSettings
  rw [hsend]
  by_cases hlog : m.builtinLogging = true <;>
    by_cases hmsi : m.storageUsesMSI = true <;>
      simp [hlog, hmsi, lookupKey_setKey_ne]

/-- Concrete record for the C4 witness: builtin logging on, content share
not force-disabled, a `Dynamic` plan tier. -/
def c4Model : SlotModel :=
  { siteConfig := [{}], storageAccountName := "acct1", storageAccountKey := "key1" }

/-- Witness for C4 at a concrete record on a `Dynamic`-tier plan. -/
theorem c4_dynamic_tier_no_content_settings_witness :
    lookupKey (((create c4Model {}).synthesizedAppSettings.getD none).getD [])
      "WEBSITE_CONTENTSHARE" = none ∧
    lookupKey (((create c4Model {}).synthesizedAppSettings.getD none).getD [])
      "WEBSITE_CONTENTAZUREFILECONNECTIONSTRING" = none :=
  c4_dynamic_tier_no_content_settings c4Model {} {} "Dynamic"
    ((create c4Model {}).synthesizedAppSettings.getD none)
    rfl rfl rfl rfl

/-- Concrete `Update` input for C9: builtin logging enabled, storage via
managed identity, no `app_settings` configured (nil map). -/
def c9State : SlotModel :=
  { builtinLogging := true, storageUsesMSI := true, appSettings := none,
    storageAccountName := "acct1", siteConfig := [{}] }

/-- Concrete remote for C9: every call succeeds and the resolved plan is
elastic, so the content-settings block that would have allocated the map is
skipped. -/
def c9Remote : UpdateRemote := { servicePlanInfo := .ok true }

/-- C9: with builtin logging enabled, managed-identity storage, a nil
`app_settings` map and an elastic plan, the write of the
`AzureWebJobsDashboard__accountName` key hits a nil map (the allocation
guard of line 722 requires `!state.StorageUsesMSI`), so `Update` panics
instead of returning an error. -/
theorem c9_update_nil_map_panic :
    c9State.builtinLogging = true ∧ c9State.storageUsesMSI = true ∧
    c9State.appSettings = none ∧
    (update {} c9State c9Remote).outcome = .panicked "assignment to entry in nil map" :=
  ⟨rfl, rfl, rfl, rfl⟩

/-- Concrete `Create` input for C10. -/
def c10Model : SlotModel := { siteConfig := [{}] }

/-- Concrete remote for C10: the service plan carries a
`HostingEnvironmentProfile` whose ID does not parse as an App Service
Environment ID. -/
def c10Remote : CreateRemote :=
  { getServicePlan := .ok { hostingEnvironmentProfile := some (some "not-an-ase-id") } }

/-- C10: when the plan's hosting-environment-profile ID fails to parse, the
parsed identifier (a nil pointer) is dereferenced on line 358 before the
parse error is checked on line 359, so `Create` panics instead of falling
back to the default suffix or returning an error. -/
theorem c10_create_ase_nil_deref_panic :
    parseAppServiceEnvironmentID "not-an-ase-id" = none ∧
    (create c10Model c10Remote).outcome =
      .panicked "invalid memory address or nil pointer dereference" :=
  ⟨rfl, rfl⟩

/-- C6: when the primary slot GET of `Read` fails, a not-found response
yields the mark-as-gone signal and any other failure yields the wrapped
read error. -/
theorem c6_read_primary_not_found (cfg : Option Settings) (r : ReadRemote) (e : HttpError)
    (hid : r.idParse = .ok ()) (hslot : r.getSlot = .error e) :
    (readSlot cfg r).outcome = (if e.notFound then .gone else .failure "reading") := by
  unfold readSlot
  by_cases hnf : e.notFound = true <;> simp [hid, hslot, hnf]

/-- Witness for C6: a not-found primary GET marks the resource gone, and a
non-404 failure is a wrapped error. -/
theorem c6_read_primary_not_found_witness :
    (readSlot none { getSlot := .error { notFound := true } }).outcome = .gone ∧
    (readSlot none { getSlot := .error { notFound := false } }).outcome = .failure "reading" :=
  ⟨c6_read_primary_not_found none { getSlot := .error { notFound := true } }
      { notFound := true } rfl rfl,
    c6_read_primary_not_found none { getSlot := .error { notFound := false } }
      { notFound := false } rfl rfl⟩

/-- Concrete remote for the C5 counterexample: only the auth-settings fetch
fails, and it fails with a 404. -/
def c5Remote : ReadRemote := { getAuthSettings := .error { notFound := true } }

/-- C5 counterexample: a not-found on the auth-settings dependent fetch is
*not* treated as absent configuration — `Read` returns the wrapped
auth-settings error and no state, refuting the claim that a not-found on any
dependent sub-resource yields an empty/default sub-state. -/
theorem c5_counterexample :
    c5Remote.getAuthSettings = .error { notFound := true } ∧
    (readSlot none c5Remote).outcome = .failure "reading Auth Settings" ∧
    (readSlot none c5Remote).state = none :=
  ⟨rfl, rfl, rfl⟩

/-- C5 (amended): only the backup sub-resource fetch tolerates a not-found.
Over any remote whose collaborators all succeed: overriding the backup fetch
with a 404 still lets `Read` succeed, with an empty backup sub-state; while
overriding any one of the other eight dependent call sites — app settings,
connection strings, publishing-credentials listing, waiting or reading, auth
settings, diagnostic logs, or site configuration — with that same 404 makes
`Read` return that call site's wrapped error. -/
theorem c5_amended_backup_only (cfg : Option Settings) (r : ReadRemote) (e : HttpError)
    (h1 : r.idParse = .ok ()) (h2 : r.getSlot = .ok true)
    (h3 : ∃ v, r.listAppSettings = .ok v) (h4 : r.listConnStrings = .ok ())
    (h5 : r.listPublishingCredentials = .ok ()) (h6 : r.waitPublishingCredentials = .ok ())
    (h7 : r.publishingCredentialsResult = .ok ()) (h8 : r.getAuthSettings = .ok ())
    (h9 : ∃ b, r.getBackup = .ok b) (h10 : r.getDiagnosticLogs = .ok ())
    (h11 : r.getConfiguration = .ok ()) (h12 : ∃ sc, r.flattenSiteConfig = .ok sc)
    (h13 : r.encode = .ok ()) (h14 : r.flattenIdentity = .ok ())
    (h15 : r.setIdentity = .ok ()) (hnf : e.notFound = true) :
    ((readSlot cfg { r with getBackup := .error e }).outcome = .success ∧
      ∃ st, (readSlot cfg { r with getBackup := .error e }).state = some st ∧
        st.backup = []) ∧
    (readSlot cfg { r with listAppSettings := .error e }).outcome =
      .failure "reading App Settings" ∧
    (readSlot cfg { r with listConnStrings := .error e }).outcome =
      .failure "reading Connection String information" ∧
    (readSlot cfg { r with listPublishingCredentials := .error e }).outcome =
      .failure "listing Site Publishing Credential information" ∧
    (readSlot cfg { r with waitPublishingCredentials := .error e }).outcome =
      .failure "waiting for Site Publishing Credential information" ∧
    (readSlot cfg { r with publishingCredentialsResult := .error e }).outcome =
      .failure "reading Site Publishing Credential information" ∧
    (readSlot cfg { r with getAuthSettings := .error e }).outcome =
      .failure "reading Auth Settings" ∧
    (readSlot cfg { r with getDiagnosticLogs := .error e }).outcome =
      .failure "reading logs configuration" ∧
    (readSlot cfg { r with getConfiguration := .error e }).outcome =
      .failure "making Read request on Function App Configuration" := by
  obtain ⟨v, h3⟩ := h3
  obtain ⟨b, h9⟩ := h9
  obtain ⟨sc, h12⟩ := h12
  refine ⟨?_, ?_, ?_, ?_, ?_, ?_, ?_, ?_, ?_⟩
  all_goals unfold readSlot readFlattenOn
  all_goals simp [h1, h2, h3, h4, h5, h6, h7, h8, h9, h10, h11, h12, h13, h14, h15,
    hnf, flattenBackupConfig]

/-- Witness for the amended C5 at concrete remotes built from the all-success
default: a backup 404 succeeds with an empty backup sub-state, a 404 on the
auth-settings or diagnostic-logs fetch is the terminal wrapped error. -/
theorem c5_amended_backup_only_witness :
    ((readSlot none { getBackup := .error { notFound := true } }).outcome = .success ∧
      ∃ st, (readSlot none { getBackup := .error { notFound := true } }).state = some st ∧
        st.backup = []) ∧
    (readSlot none { getAuthSettings := .error { notFound := true } }).outcome =
      .failure "reading Auth Settings" ∧
    (readSlot none { getDiagnosticLogs := .error { notFound := true } }).outcome =
      .failure "reading logs configuration" := by
  have h := c5_amended_backup_only none {} { notFound := true } rfl rfl ⟨some [], rfl⟩
    rfl rfl rfl rfl rfl ⟨false, rfl⟩ rfl rfl ⟨{}, rfl⟩ rfl rfl rfl rfl
  exact ⟨h.1, h.2.2.2.2.2.2.1, h.2.2.2.2.2.2.2.1⟩

/-- Trace of the diagnostic-logs tail under success. -/
theorem updateTailLogs_spec (chg : UpdateChanges) (state : SlotModel) (r : UpdateRemote)
    (h : (updateTailLogs chg state r).2 = .success) :
    (updateTailLogs chg state r).1 =
      if chg.appServiceLogs then [ApiCall.updateDiagnosticLogsConfigSlot] else [] := by
  unfold updateTailLogs at h ⊢
  by_cases hl : chg.appServiceLogs = true
  · cases hsc : state.siteConfig with
    | nil => simp [hl, hsc] at h
    | cons a b =>
      cases hd : r.updateDiagnosticLogs with
      | error e => simp [hl, hsc, hd] at h
      | ok u => simp [hl, hsc, hd]
  · simp [hl]

/-- Trace of the backup tail under success: one backup call (update or
delete) when the flag is set, then the logs tail, which also succeeded. -/
theorem updateTailBackup_spec (chg : UpdateChanges) (state : SlotModel) (r : UpdateRemote)
    (h : (updateTailBackup chg state r).2 = .success) :
    (updateTailLogs chg state r).2 = .success ∧
    ∃ bc, (bc = ApiCall.updateBackupConfigurationSlot ∨
        bc = ApiCall.deleteBackupConfigurationSlot) ∧
      (updateTailBackup chg state r).1 =
        (if chg.backup then [bc] else []) ++ (updateTailLogs chg state r).1 := by
  unfold updateTailBackup at h ⊢
  by_cases hb : chg.backup = true
  · by_cases hp : expandBackupHasProps state.backup = true
    · cases hd : r.updateBackup with
      | error e => simp [hb, hp, hd] at h
      | ok u =>
        simp [hb, hp, hd] at h ⊢
        exact h
    · cases hd : r.deleteBackup with
      | error e => simp [hb, hp, hd] at h
      | ok u =>
        simp [hb, hp, hd] at h ⊢
        exact h
  · simp [hb] at h ⊢
    exact h

/-- Trace of the auth-settings tail under success. -/
theorem updateTailAuth_spec (chg : UpdateChanges) (state : SlotModel) (r : UpdateRemote)
    (h : (updateTailAuth chg state r).2 = .success) :
    (updateTailBackup chg state r).2 = .success ∧
    (updateTailAuth chg state r).1 =
      (if chg.authSettings then [ApiCall.updateAuthSettingsSlot] else []) ++
        (updateTailBackup chg state r).1 := by
  unfold updateTailAuth at h ⊢
  by_cases ha : chg.authSettings = true
  · cases hd : r.updateAuth with
    | error e => simp [ha, hd] at h
    | ok u => simp [ha, hd] at h ⊢; exact h
  · simp [ha] at h ⊢; exact h

/-- Trace of the connection-strings tail under success. -/
theorem updateTailConn_spec (chg : UpdateChanges) (state : SlotModel) (r : UpdateRemote)
    (h : (updateTailConn chg state r).2 = .success) :
    (updateTailAuth chg state r).2 = .success ∧
    (updateTailConn chg state r).1 =
      (if chg.connectionString then [ApiCall.updateConnectionStringsSlot] else []) ++
        (updateTailAuth chg state r).1 := by
  unfold updateTailConn at h ⊢
  by_cases hc : chg.connectionString = true
  · cases hd : r.updateConnStrings with
    | error e => simp [hc, hd] at h
    | ok u => simp [hc, hd] at h ⊢; exact h
  · simp [hc] at h ⊢; exact h

/-- Full shape of the gated sub-resource tail of `Update` under success. -/
theorem updateTailConn_shape (chg : UpdateChanges) (state : SlotModel) (r : UpdateRemote)
    (h : (updateTailConn chg state r).2 = .success) :
    ∃ bc, (bc = ApiCall.updateBackupConfigurationSlot ∨
        bc = ApiCall.deleteBackupConfigurationSlot) ∧
      (updateTailConn chg state r).1 =
        (if chg.connectionString then [ApiCall.updateConnectionStringsSlot] else []) ++
        (if chg.authSettings then [ApiCall.updateAuthSettingsSlot] else []) ++
        (if chg.backup then [bc] else []) ++
        (if chg.appServiceLogs then [ApiCall.updateDiagnosticLogsConfigSlot] else []) := by
  obtain ⟨hauth, hconntr⟩ := updateTailConn_spec chg state r h
  obtain ⟨hback, hauthtr⟩ := updateTailAuth_spec chg state r hauth
  obtain ⟨hlogs, bc, hbc, hbcktr⟩ := updateTailBackup_spec chg state r hback
  have hlogstr := updateTailLogs_spec chg state r hlogs
  refine ⟨bc, hbc, ?_⟩
  rw [hconntr, hauthtr, hbcktr, hlogstr]
  simp [List.append_assoc]

/-- Under success, the merge-and-PUT tail of `Update` appends the primary
PUT and the unconditional site-config call, then the gated tail, which also
succeeded. -/
theorem updateMergeOn_spec (chg : UpdateChanges) (state : SlotModel) (r : UpdateRemote)
    (t : List ApiCall) (h : (updateMergeOn chg state r t).outcome = .success) :
    (updateTailConn chg state r).2 = .success ∧
    (updateMergeOn chg state r t).trace =
      t ++ [ApiCall.createOrUpdateSlot, ApiCall.updateConfigurationSlot] ++
        (updateTailConn chg state r).1 := by
  unfold updateMergeOn at h ⊢
  cases h1 : r.expandSiteConfig with
  | error e => simp [h1] at h
  | ok u =>
    cases h2 : r.updateSlot with
    | error e => simp [h1, h2] at h
    | ok u2 =>
      cases h3 : r.waitUpdate with
      | error e => simp [h1, h2, h3] at h
      | ok u3 =>
        cases h4 : r.updateConfiguration with
        | error e => simp [h1, h2, h3, h4] at h
        | ok u4 => simp [h1, h2, h3, h4] at h ⊢; exact h

/-- The application-stack gate adds no calls under success. -/
theorem updateStackOn_spec (chg : UpdateChanges) (state : SlotModel) (r : UpdateRemote)
    (t : List ApiCall) (h : (updateStackOn chg state r t).outcome = .success) :
    (updateMergeOn chg state r t).outcome = .success ∧
    (updateStackOn chg state r t).trace = (updateMergeOn chg state r t).trace := by
  unfold updateStackOn at h ⊢
  by_cases hs : chg.applicationStack = true
  · cases hsc : state.siteConfig with
    | nil => simp [hs, hsc] at h
    | cons a b => simp [hs, hsc] at h ⊢; exact h
  · simp [hs] at h ⊢; exact h

/-- The site-config gate adds no calls under success. -/
theorem updateAfterLogging_spec (chg : UpdateChanges) (state : SlotModel) (r : UpdateRemote)
    (t : List ApiCall) (h : (updateAfterLogging chg state r t).outcome = .success) :
    (updateMergeOn chg state r t).outcome = .success ∧
    (updateAfterLogging chg state r t).trace = (updateMergeOn chg state r t).trace := by
  unfold updateAfterLogging at h ⊢
  by_cases hc : chg.siteConfig = true
  · cases he : r.expandSiteConfig with
    | error e => simp [hc, he] at h
    | ok u =>
      simp [hc, he] at h ⊢
      exact updateStackOn_spec chg state r t h
  · simp [hc] at h ⊢
    exact updateStackOn_spec chg state r t h

/-- The builtin-logging block only rewrites `appSettings` (or panics): under
success there is a state with the same backup and site-config fields for
which the continuation succeeded with the same trace. -/
theorem updateLoggingOn_spec (chg : UpdateChanges) (state : SlotModel) (r : UpdateRemote)
    (t : List ApiCall) (ss : String)
    (h : (updateLoggingOn chg state r t ss).outcome = .success) :
    ∃ state2, state2.backup = state.backup ∧ state2.siteConfig = state.siteConfig ∧
      (updateAfterLogging chg state2 r t).outcome = .success ∧
      (updateLoggingOn chg state r t ss).trace = (updateAfterLogging chg state2 r t).trace := by
  unfold updateLoggingOn at h ⊢
  by_cases hl : state.builtinLogging = true
  · by_cases hmsi : state.storageUsesMSI = true
    · cases hap : state.appSettings with
      | none => simp [hl, hmsi, hap] at h
      | some m0 =>
        simp only [hl, hmsi, hap] at h ⊢
        simp at h ⊢
        exact ⟨_, rfl, rfl, h, rfl⟩
    · cases hap : state.appSettings with
      | none =>
        simp only [hl, hmsi, hap] at h ⊢
        simp at h ⊢
        exact ⟨_, rfl, rfl, h, rfl⟩
      | some m0 =>
        simp only [hl, hmsi, hap] at h ⊢
        simp at h ⊢
        exact ⟨_, rfl, rfl, h, rfl⟩
  · simp [hl] at h ⊢
    exact ⟨state, rfl, rfl, h, rfl⟩

/-- Shape of a successful `Update`'s trace: a prefix made of the slot GET
(and the app-settings list call when content settings were sent), the
primary PUT, the unconditional site-config call, and the four gated
sub-resource calls. -/
theorem update_success_shape (chg : UpdateChanges) (state : SlotModel) (r : UpdateRemote)
    (h : (update chg state r).outcome = .success) :
    ∃ t0 bc, (t0 = [ApiCall.getSlot] ∨ t0 = [ApiCall.getSlot, ApiCall.listApplicationSettings]) ∧
      (bc = ApiCall.updateBackupConfigurationSlot ∨
        bc = ApiCall.deleteBackupConfigurationSlot) ∧
      (update chg state r).trace =
        t0 ++ [ApiCall.createOrUpdateSlot, ApiCall.updateConfigurationSlot] ++
        ((if chg.connectionString then [ApiCall.updateConnectionStringsSlot] else []) ++
         (if chg.authSettings then [ApiCall.updateAuthSettingsSlot] else []) ++
         (if chg.backup then [bc] else []) ++
         (if chg.appServiceLogs then [ApiCall.updateDiagnosticLogsConfigSlot] else [])) := by
  have main :
      ∀ (t0 : List ApiCall) (state1 : SlotModel) (ss : String),
        (updateLoggingOn chg state1 r t0 ss).outcome = .success →
        ∃ bc, (bc = ApiCall.updateBackupConfigurationSlot ∨
            bc = ApiCall.deleteBackupConfigurationSlot) ∧
          (updateLoggingOn chg state1 r t0 ss).trace =
            t0 ++ [ApiCall.createOrUpdateSlot, ApiCall.updateConfigurationSlot] ++
            ((if chg.connectionString then [ApiCall.updateConnectionStringsSlot] else []) ++
             (if chg.authSettings then [ApiCall.updateAuthSettingsSlot] else []) ++
             (if chg.backup then [bc] else []) ++
             (if chg.appServiceLogs then [ApiCall.updateDiagnosticLogsConfigSlot] else [])) := by
    intro t0 state1 ss hl
    obtain ⟨state2, _, _, hafter, htr1⟩ := updateLoggingOn_spec chg state1 r t0 ss hl
    obtain ⟨hmerge, htr2⟩ := updateAfterLogging_spec chg state2 r t0 hafter
    obtain ⟨htail, htr3⟩ := updateMergeOn_spec chg state2 r t0 hmerge
    obtain ⟨bc, hbc, htr4⟩ := updateTailConn_shape chg state2 r htail
    exact ⟨bc, hbc, by rw [htr1, htr2, htr3, htr4]⟩
  cases h1 : r.idParse with
  | error e =>
    have heq : update chg state r = ⟨[], .failure e⟩ := by unfold update; simp [h1]
    rw [heq] at h; simp at h
  | ok u1 =>
  cases h2 : r.decode with
  | error e =>
    have heq : update chg state r = ⟨[], .failure "decoding"⟩ := by
      unfold update; simp [h1, h2]
    rw [heq] at h; simp at h
  | ok u2 =>
  cases h3 : r.getSlot with
  | error e =>
    have heq : update chg state r = ⟨[ApiCall.getSlot], .failure "reading"⟩ := by
      unfold update; simp [h1, h2, h3]
    rw [heq] at h; simp at h
  | ok u3 =>
  cases h4 : r.servicePlanInfo with
  | error e =>
    have heq : update chg state r = ⟨[ApiCall.getSlot], .failure e⟩ := by
      unfold update; simp [h1, h2, h3, h4]
    rw [heq] at h; simp at h
  | ok elastic =>
  have content :
      (update chg state r) = updateContentOn chg state r (!elastic) →
      ∃ t0 bc, (t0 = [ApiCall.getSlot] ∨
          t0 = [ApiCall.getSlot, ApiCall.listApplicationSettings]) ∧
        (bc = ApiCall.updateBackupConfigurationSlot ∨
          bc = ApiCall.deleteBackupConfigurationSlot) ∧
        (update chg state r).trace =
          t0 ++ [ApiCall.createOrUpdateSlot, ApiCall.updateConfigurationSlot] ++
          ((if chg.connectionString then [ApiCall.updateConnectionStringsSlot] else []) ++
           (if chg.authSettings then [ApiCall.updateAuthSettingsSlot] else []) ++
           (if chg.backup then [bc] else []) ++
           (if chg.appServiceLogs then [ApiCall.updateDiagnosticLogsConfigSlot] else [])) := by
    intro heq
    rw [heq] at h ⊢
    by_cases hsend : (!elastic) = true
    · cases hla : r.listAppSettings with
      | error e =>
        have heq2 : updateContentOn chg state r (!elastic) =
            ⟨[ApiCall.getSlot, ApiCall.listApplicationSettings],
              .failure "reading App Settings"⟩ := by
          unfold updateContentOn; simp [hsend, hla]
        rw [heq2] at h; simp at h
      | ok resp =>
        have heq2 : updateContentOn chg state r (!elastic) =
            updateLoggingOn chg
              { state with appSettings := some (parseContentSettings resp (state.appSettings.getD [])) }
              r [ApiCall.getSlot, ApiCall.listApplicationSettings]
              (createStorageString state r.endpointSuffix) := by
          unfold updateContentOn; simp [hsend, hla]
        rw [heq2] at h ⊢
        obtain ⟨bc, hbc, htr⟩ := main [ApiCall.getSlot, ApiCall.listApplicationSettings]
          { state with appSettings := some (parseContentSettings resp (state.appSettings.getD [])) }
          (createStorageString state r.endpointSuffix) h
        exact ⟨[ApiCall.getSlot, ApiCall.listApplicationSettings], bc, Or.inr rfl, hbc, htr⟩
    · have heq2 : updateContentOn chg state r (!elastic) =
          updateLoggingOn chg state r [ApiCall.getSlot]
            (createStorageString state r.endpointSuffix) := by
        unfold updateContentOn; simp [hsend]
      rw [heq2] at h ⊢
      obtain ⟨bc, hbc, htr⟩ := main [ApiCall.getSlot] state
        (createStorageString state r.endpointSuffix) h
      exact ⟨[ApiCall.getSlot], bc, Or.inl rfl, hbc, htr⟩
  by_cases hid : chg.identity = true
  · cases h5 : r.expandIdentity with
    | error e =>
      have heq : update chg state r = ⟨[ApiCall.getSlot], .failure "expanding identity"⟩ := by
        unfold update; simp [h1, h2, h3, h4, hid, h5]
      rw [heq] at h; simp at h
    | ok u5 =>
      exact content (by unfold update; simp [h1, h2, h3, h4, hid, h5])
  · exact content (by unfold update; simp [h1, h2, h3, h4, hid])

/-- C1 (amended): on every `Update` that completes successfully, the backup,
auth-settings, connection-strings and app-service-logs calls are issued if
and only if their change-set flags are set, but the site-config update call
(`UpdateConfigurationSlot`, line 754) is issued unconditionally — in
particular, when only `tags` changed, no backup, auth-settings or
connection-string call is issued. -/
theorem c1_update_subresource_gating (chg : UpdateChanges) (state : SlotModel)
    (r : UpdateRemote) (h : (update chg state r).outcome = .success) :
    ApiCall.updateConfigurationSlot ∈ (update chg state r).trace ∧
    (ApiCall.updateConnectionStringsSlot ∈ (update chg state r).trace ↔
      chg.connectionString = true) ∧
    (ApiCall.updateAuthSettingsSlot ∈ (update chg state r).trace ↔
      chg.authSettings = true) ∧
    ((ApiCall.updateBackupConfigurationSlot ∈ (update chg state r).trace ∨
      ApiCall.deleteBackupConfigurationSlot ∈ (update chg state r).trace) ↔
      chg.backup = true) ∧
    (ApiCall.updateDiagnosticLogsConfigSlot ∈ (update chg state r).trace ↔
      chg.appServiceLogs = true) := by
  obtain ⟨t0, bc, ht0, hbc, htr⟩ := update_success_shape chg state r h
  rw [htr]
  rcases ht0 with h0 | h0 <;> subst h0 <;> rcases hbc with h1 | h1 <;> subst h1 <;>
    by_cases hc1 : chg.connectionString = true <;>
      by_cases hc2 : chg.authSettings = true <;>
        by_cases hc3 : chg.backup = true <;>
          by_cases hc4 : chg.appServiceLogs = true <;>
            simp [hc1, hc2, hc3, hc4]

/-- The change set of the C1 scenarios: only `tags` changed. -/
def c1OnlyTags : UpdateChanges := { tags := true }

/-- A state on which `Update` runs to success with every remote call
succeeding. -/
def c1State : SlotModel :=
  { builtinLogging := false, siteConfig := [{}], appSettings := some [] }

/-- C1 counterexample: an `Update` with only the `tags` flag set completes
successfully, yet the site-config update call is issued even though the
`site_config` change flag is unset — refuting the claimed "issued if and
only if its flag is set" for the site-config sub-resource. -/
theorem c1_counterexample :
    (update c1OnlyTags c1State {}).outcome = .success ∧
    ¬ (ApiCall.updateConfigurationSlot ∈ (update c1OnlyTags c1State {}).trace ↔
        c1OnlyTags.siteConfig = true) :=
  ⟨rfl, by decide⟩

/-- Every change flag set, for the C1 witness. -/
def c1AllChanges : UpdateChanges :=
  { enabled := true, httpsOnly := true, clientCertEnabled := true, clientCertMode := true,
    identity := true, keyVaultReferenceIdentityId := true, tags := true, siteConfig := true,
    applicationStack := true, connectionString := true, authSettings := true, backup := true,
    appServiceLogs := true }

/-- A state with a backup block configured, for the C1 witness. -/
def c1WitState : SlotModel :=
  { builtinLogging := false, siteConfig := [{}], appSettings := some [], backup := [()] }

/-- Witness for the amended C1 at a concrete successful `Update` with every
flag set. -/
theorem c1_update_subresource_gating_witness :
    ApiCall.updateConfigurationSlot ∈ (update c1AllChanges c1WitState {}).trace ∧
    (ApiCall.updateConnectionStringsSlot ∈ (update c1AllChanges c1WitState {}).trace ↔
      c1AllChanges.connectionString = true) ∧
    (ApiCall.updateAuthSettingsSlot ∈ (update c1AllChanges c1WitState {}).trace ↔
      c1AllChanges.authSettings = true) ∧
    ((ApiCall.updateBackupConfigurationSlot ∈ (update c1AllChanges c1WitState {}).trace ∨
      ApiCall.deleteBackupConfigurationSlot ∈ (update c1AllChanges c1WitState {}).trace) ↔
      c1AllChanges.backup = true) ∧
    (ApiCall.updateDiagnosticLogsConfigSlot ∈ (update c1AllChanges c1WitState {}).trace ↔
      c1AllChanges.appServiceLogs = true) :=
  c1_update_subresource_gating c1AllChanges c1WitState {} rfl

/-! ### String lemmas for the storage round trip -/

/-- A list starts with itself followed by anything. -/
theorem listStartsWith_append_self (p r : List Char) :
    listStartsWith (p ++ r) p = true := by
  induction p with
  | nil => simp [listStartsWith]
  | cons c cs ih => simp [listStartsWith, ih]

/-- Prefix checks no longer than the first summand ignore the second. -/
theorem listStartsWith_append_left (q : List Char) :
    ∀ (p r : List Char), q.length ≤ p.length →
      listStartsWith (p ++ r) q = listStartsWith p q := by
  induction q with
  | nil => intro p r _; cases p <;> simp [listStartsWith]
  | cons d ds ih =>
    intro p r h
    cases p with
    | nil => simp at h
    | cons c cs =>
      simp only [List.cons_append, listStartsWith]
      rw [List.append_eq, ih cs r (by simpa using h)]

/-- Trimming a prefix off itself-plus-rest yields the rest. -/
theorem goTrimStartList_append (p r : List Char) :
    goTrimStartList (p ++ r) p = r := by
  simp [goTrimStartList, listStartsWith_append_self, List.drop_left]

/-- Trimming one trailing character. -/
theorem goTrimEndList_append (xs : List Char) (c : Char) :
    goTrimEndList (xs ++ [c]) [c] = xs := by
  simp [goTrimEndList, listEndsWith, listStartsWith]

/-- Splitting a separator-free list yields one chunk. -/
theorem splitChar_no_sep (sep : Char) (xs : List Char) (hx : sep ∉ xs) :
    splitChar sep xs = [xs] := by
  induction xs with
  | nil => simp [splitChar]
  | cons c cs ih =>
    simp only [List.mem_cons, not_or] at hx
    simp [splitChar, ih hx.2, Ne.symm hx.1]

/-- Splitting never yields an empty chunk list. -/
theorem splitChar_ne_nil (sep : Char) (xs : List Char) : splitChar sep xs ≠ [] := by
  induction xs with
  | nil => simp [splitChar]
  | cons c cs ih =>
    simp only [splitChar]
    cases h : splitChar sep cs with
    | nil => exact absurd h ih
    | cons g gs => by_cases hc : c = sep <;> simp [hc]

/-- Splitting at the first separator after a separator-free chunk. -/
theorem splitChar_append_sep (sep : Char) (xs ys : List Char) (hx : sep ∉ xs) :
    splitChar sep (xs ++ sep :: ys) = xs :: splitChar sep ys := by
  induction xs with
  | nil =>
    simp only [List.nil_append, splitChar]
    cases h : splitChar sep ys with
    | nil => exact absurd h (splitChar_ne_nil sep ys)
    | cons g gs => simp
  | cons c cs ih =>
    simp only [List.mem_cons, not_or] at hx
    simp only [List.cons_append, splitChar, List.append_eq]
    rw [ih hx.2]
    simp [Ne.symm hx.1]

/-- The wire form of the synthesized storage connection string, as the char
list the flatten direction splits. -/
theorem storageStringFmt_toList (n k sfx : String) :
    (storageStringFmt n k sfx).toList =
      "DefaultEndpointsProtocol=https".toList ++ ';' ::
        (("AccountName=".toList ++ n.toList) ++ ';' ::
          (("AccountKey=".toList ++ k.toList) ++ ';' ::
            ("EndpointSuffix=".toList ++ sfx.toList))) := by
  show (String.data _) = _
  unfold storageStringFmt
  simp only [String.data_append]
  simp [String.toList, List.append_assoc, List.cons_append]

/-- The flatten direction of the synthesized storage connection string
recovers the account name and key, provided none of the parts contains the
separator. -/
theorem parseWebJobsStorageString_roundtrip (n k sfx : String)
    (hn : ';' ∉ n.toList) (hk : ';' ∉ k.toList) (hs : ';' ∉ sfx.toList) :
    parseWebJobsStorageString (storageStringFmt n k sfx) = (n, k) := by
  have hlit1 : ';' ∉ "DefaultEndpointsProtocol=https".toList := by decide
  have hlit2 : ';' ∉ "AccountName=".toList := by decide
  have hlit3 : ';' ∉ "AccountKey=".toList := by decide
  have hlit4 : ';' ∉ "EndpointSuffix=".toList := by decide
  have hsplit : splitChar ';' (storageStringFmt n k sfx).toList =
      ["DefaultEndpointsProtocol=https".toList,
       "AccountName=".toList ++ n.toList,
       "AccountKey=".toList ++ k.toList,
       "EndpointSuffix=".toList ++ sfx.toList] := by
    rw [storageStringFmt_toList]
    rw [splitChar_append_sep ';' _ _ hlit1]
    rw [splitChar_append_sep ';' _ _ (by simp [hlit2]; exact hn)]
    rw [splitChar_append_sep ';' _ _ (by simp [hlit3]; exact hk)]
    rw [splitChar_no_sep ';' _ (by simp [hlit4]; exact hs)]
  unfold parseWebJobsStorageString
  rw [hsplit]
  simp only [List.foldl_cons, List.foldl_nil]
  unfold storagePartStep
  rw [listStartsWith_append_left "AccountName".toList "AccountName=".toList n.toList
      (by decide),
    listStartsWith_append_left "AccountKey".toList "AccountName=".toList n.toList
      (by decide),
    listStartsWith_append_left "AccountName".toList "AccountKey=".toList k.toList
      (by decide),
    listStartsWith_append_left "AccountKey".toList "AccountKey=".toList k.toList
      (by decide),
    listStartsWith_append_left "AccountName".toList "EndpointSuffix=".toList sfx.toList
      (by decide),
    listStartsWith_append_left "AccountKey".toList "EndpointSuffix=".toList sfx.toList
      (by decide)]
  simp only [show listStartsWith "DefaultEndpointsProtocol=https".toList
      "AccountName".toList = false from by decide,
    show listStartsWith "DefaultEndpointsProtocol=https".toList
      "AccountKey".toList = false from by decide,
    show listStartsWith "AccountName=".toList "AccountName".toList = true from by decide,
    show listStartsWith "AccountName=".toList "AccountKey".toList = false from by decide,
    show listStartsWith "AccountKey=".toList "AccountName".toList = false from by decide,
    show listStartsWith "AccountKey=".toList "AccountKey".toList = true from by decide,
    show listStartsWith "EndpointSuffix=".toList "AccountName".toList = false from by decide,
    show listStartsWith "EndpointSuffix=".toList "AccountKey".toList = false from by decide]
  simp only [Bool.false_eq_true, if_false, if_true]
  rw [goTrimStartList_append, goTrimStartList_append]
  simp [String.toList]

/-- The Key Vault reference trims back to the secret ID (flatten inverts the
expand-side reference synthesis). -/
theorem kvStorageString_trim (id : String) :
    goTrimStart (goTrimEnd (storageStringKV id) ")") "@Microsoft.KeyVault(SecretUri=" = id := by
  have h1 : (storageStringKV id).toList =
      ("@Microsoft.KeyVault(SecretUri=".toList ++ id.toList) ++ [')'] := by
    show (String.data _) = _
    unfold storageStringKV
    simp [String.data_append, String.toList, List.append_assoc]
  unfold goTrimEnd
  rw [h1, show (")" : String).toList = [')'] from rfl, goTrimEndList_append]
  unfold goTrimStart
  rw [show (String.mk ("@Microsoft.KeyVault(SecretUri=".toList ++ id.toList)).toList =
      "@Microsoft.KeyVault(SecretUri=".toList ++ id.toList from rfl]
  rw [goTrimStartList_append]
  rfl

/-- A Key Vault reference is recognised by its prefix. -/
theorem kvStorageString_hasKvPrefix (id : String) :
    goHasPrefixStr (storageStringKV id) "@Microsoft.KeyVault" = true := by
  have h1 : (storageStringKV id).toList =
      "@Microsoft.KeyVault(SecretUri=".toList ++ (id.toList ++ [')']) := by
    show (String.data _) = _
    unfold storageStringKV
    simp [String.data_append, String.toList, List.append_assoc]
  unfold goHasPrefixStr
  rw [h1, listStartsWith_append_left _ _ _ (by decide)]
  decide

/-- The plain connection string is not mistaken for a Key Vault reference. -/
theorem storageStringFmt_noKvPrefix (n k sfx : String) :
    goHasPrefixStr (storageStringFmt n k sfx) "@Microsoft.KeyVault" = false := by
  unfold goHasPrefixStr
  rw [storageStringFmt_toList, listStartsWith_append_left _ _ _ (by decide)]
  decide

/-! ### Map lemmas for the round trip -/

/-- Lookup over an append falls through to the second list when the first
misses. -/
theorem lookupKey_append (a b : Settings) (k : String) :
    lookupKey (a ++ b) k =
      (match lookupKey a k with
       | some v => some v
       | none => lookupKey b k) := by
  induction a with
  | nil => simp [lookupKey]
  | cons hd tl ih =>
    by_cases h : hd.1 = k
    · simp [lookupKey, h]
    · simp [lookupKey, h, ih]

/-- Setting an absent key appends the binding. -/
theorem setKey_append_of_none (s : Settings) (k v : String)
    (h : lookupKey s k = none) : setKey s k v = s ++ [(k, v)] := by
  induction s with
  | nil => simp [setKey]
  | cons hd tl ih =>
    by_cases h1 : hd.1 = k
    · simp [lookupKey, h1] at h
    · simp only [lookupKey, h1] at h
      simp [setKey, h1, ih (by simpa using h)]

/-- Folding `setKey` over bindings whose keys are absent from the
accumulator and pairwise distinct appends them in order. -/
theorem setKey_foldl_append (l : Settings) :
    ∀ (acc : Settings), (∀ kv ∈ l, lookupKey acc kv.1 = none) →
      l.Pairwise (fun a b => a.1 ≠ b.1) →
      l.foldl (fun c kv => setKey c kv.1 kv.2) acc = acc ++ l := by
  induction l with
  | nil => intro acc _ _; simp
  | cons hd tl ih =>
    intro acc hacc hnd
    simp only [List.foldl_cons]
    rw [setKey_append_of_none acc hd.1 hd.2 (hacc hd (List.mem_cons_self _ _))]
    rw [ih (acc ++ [(hd.1, hd.2)]) ?_ (List.Pairwise.of_cons hnd)]
    · simp
    · intro kv hm
      rw [lookupKey_append]
      rw [hacc kv (List.mem_cons_of_mem _ hm)]
      have hne : hd.1 ≠ kv.1 := (List.pairwise_cons.mp hnd).1 kv hm
      simp [lookupKey, hne]

/-- When no key of the user list is framework-managed, the reserved-key
check of the merge never fires. -/
theorem merge_foldl_eq (sys : Settings) (l : Settings)
    (hnot : ∀ kv ∈ l, lookupKey sys kv.1 = none) :
    ∀ acc, l.foldl
        (fun acc kv => if (lookupKey sys kv.1).isSome then acc else setKey acc kv.1 kv.2) acc =
      l.foldl (fun c kv => setKey c kv.1 kv.2) acc := by
  induction l with
  | nil => intro acc; simp
  | cons hd tl ih =>
    intro acc
    simp only [List.foldl_cons]
    rw [hnot hd (List.mem_cons_self _ _)]
    simp only [Option.isSome_none, Bool.false_eq_true, if_false]
    exact ih (fun kv hm => hnot kv (List.mem_cons_of_mem _ hm)) _

/-- Merging user settings that avoid the framework-managed keys appends them
after the framework-managed ones. -/
theorem mergeUserAppSettings_append (sys : Settings) (l : Settings)
    (hnot : ∀ kv ∈ l, lookupKey sys kv.1 = none)
    (hnodup : l.Pairwise (fun a b => a.1 ≠ b.1)) :
    mergeUserAppSettings sys (some l) = sys ++ l := by
  unfold mergeUserAppSettings
  simp only [Option.getD_some]
  rw [merge_foldl_eq sys l hnot, setKey_foldl_append l sys hnot hnodup]

/-- The reserved app-settings keys: every key the flatten direction handles
specially rather than treating as a free-form user setting. -/
def reservedAppSettingKeys : List String :=
  ["FUNCTIONS_EXTENSION_VERSION", "WEBSITE_NODE_DEFAULT_VERSION",
   "WEBSITE_CONTENTAZUREFILECONNECTIONSTRING", "WEBSITE_CONTENTSHARE",
   "WEBSITE_HTTPLOGGING_RETENTION_DAYS", "FUNCTIONS_WORKER_RUNTIME",
   "DOCKER_REGISTRY_SERVER_URL", "DOCKER_REGISTRY_SERVER_USERNAME",
   "DOCKER_REGISTRY_SERVER_PASSWORD", "APPINSIGHTS_INSTRUMENTATIONKEY",
   "APPLICATIONINSIGHTS_CONNECTION_STRING", "AzureWebJobsStorage",
   "AzureWebJobsDashboard", "WEBSITE_HEALTHCHECK_MAXPINGFAILURES",
   "AzureWebJobsStorage__accountName", "AzureWebJobsDashboard__accountName",
   "WEBSITE_RUN_FROM_PACKAGE"]

/-- A non-reserved entry takes the default branch of the flatten loop: it is
collected into the app-settings map and touches nothing else. -/
theorem unpackStep_plain (cfg : Option Settings) (st : UnpackAcc) (kv : String × String)
    (hres : kv.1 ∉ reservedAppSettingKeys) :
    unpackStep cfg st kv = { st with collected := setKey st.collected kv.1 kv.2 } := by
  simp only [reservedAppSettingKeys, List.mem_cons, List.not_mem_nil, or_false, not_or] at hres
  obtain ⟨h1, h2, h3, h4, h5, h6, h7, h8, h9, h10, h11, h12, h13, h14, h15, h16, h17⟩ := hres
  simp [unpackStep, h1, h2, h3, h4, h5, h6, h7, h8, h9, h10, h11, h12, h13, h14, h15, h16, h17]

/-- Folding the flatten loop over non-reserved entries only extends the
collected app-settings map. -/
theorem unpackFold_plain (cfg : Option Settings) (l : Settings) :
    ∀ (st : UnpackAcc), (∀ kv ∈ l, kv.1 ∉ reservedAppSettingKeys) →
      l.foldl (unpackStep cfg) st =
        ⟨st.m, l.foldl (fun c kv => setKey c kv.1 kv.2) st.collected, st.docker⟩ := by
  induction l with
  | nil => intro st _; simp
  | cons hd tl ih =>
    intro st hres
    simp only [List.foldl_cons]
    rw [unpackStep_plain cfg st hd (hres hd (List.mem_cons_self _ _))]
    rw [ih _ (fun kv hm => hres kv (List.mem_cons_of_mem _ hm))]

/-- Shape of the Create-side app-settings synthesis when the user settings
avoid the synthesized keys: the dashboard binding and the content-share
bindings are appended after the user settings. -/
theorem createSynth_shape (m : SlotModel) (send : Bool) (ss sfx : String)
    (h1 : lookupKey (m.appSettings.getD []) "AzureWebJobsDashboard" = none)
    (h2 : lookupKey (m.appSettings.getD []) "AzureWebJobsDashboard__accountName" = none)
    (h3 : lookupKey (m.appSettings.getD []) "WEBSITE_CONTENTSHARE" = none)
    (h4 : lookupKey (m.appSettings.getD [])
        "WEBSITE_CONTENTAZUREFILECONNECTIONSTRING" = none) :
    (createSynthAppSettings m send ss sfx).getD [] =
      m.appSettings.getD [] ++
      (if m.builtinLogging then
        [if m.storageUsesMSI then ("AzureWebJobsDashboard__accountName", m.storageAccountName)
         else ("AzureWebJobsDashboard", ss)] else []) ++
      (if send then
        [("WEBSITE_CONTENTSHARE", asciiLower m.name ++ "-" ++ sfx),
         ("WEBSITE_CONTENTAZUREFILECONNECTIONSTRING", ss)] else []) := by
  unfold createSynthAppSettings
  by_cases hb : m.builtinLogging = true <;> by_cases hmsi : m.storageUsesMSI = true <;>
    by_cases hsend : send = true <;>
      simp [hb, hmsi, hsend, setKey_append_of_none, lookupKey_append, lookupKey,
        h1, h2, h3, h4, List.append_assoc]

/-- A successful lookup exhibits an entry with that key. -/
theorem lookupKey_some_memKey (s : Settings) (k v : String)
    (h : lookupKey s k = some v) : ∃ kv ∈ s, kv.1 = k := by
  induction s with
  | nil => simp [lookupKey] at h
  | cons hd tl ih =>
    by_cases h1 : hd.1 = k
    · exact ⟨hd, List.mem_cons_self _ _, h1⟩
    · simp only [lookupKey, h1, if_false] at h
      obtain ⟨kv, hm, hk⟩ := ih (by simpa using h)
      exact ⟨kv, List.mem_cons_of_mem _ hm, hk⟩

/-- A key absent from the configured app settings fails the `GetOk` check. -/
theorem configGetOk_of_lookup_none (cfg : Option Settings) (k : String)
    (h : lookupKey (cfg.getD []) k = none) : configGetOkAppSetting cfg k = false := by
  cases cfg with
  | none => rfl
  | some s => simp only [Option.getD_some] at h; simp [configGetOkAppSetting, h]

/-- Flatten step: the extension-version setting. -/
theorem unpackStep_fev (cfg : Option Settings) (st : UnpackAcc) (v : String) :
    unpackStep cfg st ("FUNCTIONS_EXTENSION_VERSION", v) =
      { st with m := { st.m with functionsExtensionVersion := v } } := by
  simp [unpackStep]

/-- Flatten step: a plain storage connection string recovers name and key. -/
theorem unpackStep_storage_plain (cfg : Option Settings) (st : UnpackAcc)
    (n k sfx : String) (hn : ';' ∉ n.toList) (hk : ';' ∉ k.toList)
    (hs : ';' ∉ sfx.toList) :
    unpackStep cfg st ("AzureWebJobsStorage", storageStringFmt n k sfx) =
      { st with m := { st.m with storageAccountName := n, storageAccountKey := k } } := by
  simp [unpackStep, storageStringFmt_noKvPrefix,
    parseWebJobsStorageString_roundtrip n k sfx hn hk hs]

/-- Flatten step: a Key Vault storage reference recovers the secret ID. -/
theorem unpackStep_storage_kv (cfg : Option Settings) (st : UnpackAcc) (id : String) :
    unpackStep cfg st ("AzureWebJobsStorage", storageStringKV id) =
      { st with m := { st.m with storageKeyVaultSecretID := id } } := by
  simp [unpackStep, kvStorageString_hasKvPrefix, kvStorageString_trim]

/-- Flatten step: the MSI storage account-name setting. -/
theorem unpackStep_storage_msi (cfg : Option Settings) (st : UnpackAcc) (v : String) :
    unpackStep cfg st ("AzureWebJobsStorage__accountName", v) =
      { st with m := { st.m with storageUsesMSI := true, storageAccountName := v } } := by
  simp [unpackStep]

/-- Flatten step: the plain dashboard key only flags builtin logging. -/
theorem unpackStep_dash (cfg : Option Settings) (st : UnpackAcc) (v : String) :
    unpackStep cfg st ("AzureWebJobsDashboard", v) =
      { st with m := { st.m with builtinLogging := true } } := by
  simp [unpackStep]

/-- Flatten step: the MSI dashboard key only flags builtin logging. -/
theorem unpackStep_dash_msi (cfg : Option Settings) (st : UnpackAcc) (v : String) :
    unpackStep cfg st ("AzureWebJobsDashboard__accountName", v) =
      { st with m := { st.m with builtinLogging := true } } := by
  simp [unpackStep]

/-- Flatten step: a content-share setting the user did not configure is
dropped. -/
theorem unpackStep_contentshare (cfg : Option Settings) (st : UnpackAcc) (v : String)
    (h : configGetOkAppSetting cfg "WEBSITE_CONTENTSHARE" = false) :
    unpackStep cfg st ("WEBSITE_CONTENTSHARE", v) = st := by
  simp [unpackStep, h]

/-- Flatten step: a content connection string the user did not configure is
dropped. -/
theorem unpackStep_contentconn (cfg : Option Settings) (st : UnpackAcc) (v : String)
    (h : configGetOkAppSetting cfg "WEBSITE_CONTENTAZUREFILECONNECTIONSTRING" = false) :
    unpackStep cfg st ("WEBSITE_CONTENTAZUREFILECONNECTIONSTRING", v) = st := by
  simp [unpackStep, h]

/-- General shape of the flatten loop over an expanded wire: the framework
entries set their model fields, the user entries are collected verbatim, the
dashboard entries apply `d`, the content entries are dropped. -/
theorem unpack_wire_shape (cfg : Option Settings) (init : SlotModel)
    (ver : String) (storEntry : String × String) (user dash content : Settings)
    (c0 : Settings) (dk0 : DockerModel)
    (g d : SlotModel → SlotModel)
    (hstor : ∀ st : UnpackAcc, unpackStep cfg st storEntry = { st with m := g st.m })
    (huser : ∀ kv ∈ user, kv.1 ∉ reservedAppSettingKeys)
    (hdash : ∀ st : UnpackAcc, dash.foldl (unpackStep cfg) st = { st with m := d st.m })
    (hcontent : ∀ st : UnpackAcc, content.foldl (unpackStep cfg) st = st) :
    (("FUNCTIONS_EXTENSION_VERSION", ver) :: storEntry ::
        (user ++ (dash ++ content))).foldl (unpackStep cfg) ⟨init, c0, dk0⟩ =
      ⟨d (g { init with functionsExtensionVersion := ver }),
       user.foldl (fun c kv => setKey c kv.1 kv.2) c0, dk0⟩ := by
  simp only [List.foldl_cons, List.foldl_append]
  rw [unpackStep_fev, hstor]
  rw [unpackFold_plain cfg user _ huser]
  rw [hdash, hcontent]

/-- The expand direction of the app-settings field mapper: the Create-side
synthesis (lines 383-421) composed with the spec-modelled framework
settings and merge — the wire `app_settings` document a Create sends. -/
def expandLinuxFunctionAppSettings (m : SlotModel)
    (endpointSuffix contentShareSuffix : String) (send : Bool) : Settings :=
  let storageString := createStorageString m endpointSuffix
  mergeUserAppSettings
    (expandSiteConfigAppSettings m.functionsExtensionVersion storageString m.storageUsesMSI)
    (createSynthAppSettings m send storageString contentShareSuffix)

/-- The merge only reads the contents of the user map, so a nil map acts as
an empty one. -/
theorem mergeUserAppSettings_getD (sys : Settings) (o : Option Settings) :
    mergeUserAppSettings sys o = mergeUserAppSettings sys (some (o.getD [])) := by
  cases o <;> rfl

/-- Validity of a desired-state record for the round-trip law: free-form
settings avoid the reserved keys and have pairwise-distinct keys; the
storage fields avoid the connection-string separator; the schema's
mutual-exclusion constraints hold (managed identity conflicts with the
access key and the Key Vault reference, and a Key Vault reference conflicts
with name, key and managed identity). -/
def ValidRecord (m : SlotModel) (endpointSuffix : String) : Prop :=
  (∀ kv ∈ m.appSettings.getD [], kv.1 ∉ reservedAppSettingKeys) ∧
  (m.appSettings.getD []).Pairwise (fun a b => a.1 ≠ b.1) ∧
  ';' ∉ m.storageAccountName.toList ∧ ';' ∉ m.storageAccountKey.toList ∧
  ';' ∉ endpointSuffix.toList ∧
  (m.storageUsesMSI = true → m.storageAccountKey = "" ∧ m.storageKeyVaultSecretID = "") ∧
  (m.storageKeyVaultSecretID ≠ "" →
    m.storageAccountName = "" ∧ m.storageAccountKey = "" ∧ m.storageUsesMSI = false)

/-- Unfolding equation of the flatten entry point on a present map. -/
theorem unpack_some (init : SlotModel) (cfg : Option Settings) (props : Settings) :
    unpackLinuxFunctionAppSettings init cfg (some props) =
      { (if (props.foldl (unpackStep cfg)
              ⟨{ init with builtinLogging := false }, [], {}⟩).docker.registryURL ≠ "" then
          (updateSiteConfigHead
            (props.foldl (unpackStep cfg)
              ⟨{ init with builtinLogging := false }, [], {}⟩).m
            (fun sc => { sc with applicationStack :=
              [{ customHandler := false, docker :=
                [(match decodeFunctionAppDockerFxString
                    ((((props.foldl (unpackStep cfg)
                        ⟨{ init with builtinLogging := false }, [], {}⟩).m.siteConfig.head?).map
                      SiteConfigModel.linuxFxVersion).getD "")
                    (props.foldl (unpackStep cfg)
                      ⟨{ init with builtinLogging := false }, [], {}⟩).docker with
                  | .ok d2 => d2
                  | .error _ =>
                    (props.foldl (unpackStep cfg)
                      ⟨{ init with builtinLogging := false }, [], {}⟩).docker)] }] }))
        else
          (props.foldl (unpackStep cfg)
            ⟨{ init with builtinLogging := false }, [], {}⟩).m) with
        appSettings := some (props.foldl (unpackStep cfg)
          ⟨{ init with builtinLogging := false }, [], {}⟩).collected } := rfl

/-- Master step of the round trip: given the wire decomposition of the
expanded settings and the action of the storage, dashboard and content
entries on the flatten loop, flattening the wire reproduces the record. -/
theorem c8_master (m : SlotModel) (sc0 : SiteConfigModel) (es sfx : String) (send : Bool)
    (dash content : Settings) (storEntry : String × String) (g d : SlotModel → SlotModel)
    (hres : ∀ kv ∈ m.appSettings.getD [], kv.1 ∉ reservedAppSettingKeys)
    (hnd : (m.appSettings.getD []).Pairwise (fun a b => a.1 ≠ b.1))
    (hwire : expandLinuxFunctionAppSettings m es sfx send =
      ("FUNCTIONS_EXTENSION_VERSION", m.functionsExtensionVersion) :: storEntry ::
        (m.appSettings.getD [] ++ (dash ++ content)))
    (hstor : ∀ st : UnpackAcc, unpackStep m.appSettings st storEntry = { st with m := g st.m })
    (hdash : ∀ st : UnpackAcc,
      dash.foldl (unpackStep m.appSettings) st = { st with m := d st.m })
    (hcontent : ∀ st : UnpackAcc, content.foldl (unpackStep m.appSettings) st = st)
    (hfinal : d (g
        { { { readBaseState with siteConfig := [sc0] } with builtinLogging := false } with
            functionsExtensionVersion := m.functionsExtensionVersion }) =
      { readBaseState with
          siteConfig := [sc0]
          functionsExtensionVersion := m.functionsExtensionVersion
          storageAccountName := m.storageAccountName
          storageAccountKey := m.storageAccountKey
          storageUsesMSI := m.storageUsesMSI
          storageKeyVaultSecretID := m.storageKeyVaultSecretID
          builtinLogging := m.builtinLogging }) :
    unpackLinuxFunctionAppSettings { readBaseState with siteConfig := [sc0] } m.appSettings
        (some (expandLinuxFunctionAppSettings m es sfx send)) =
      { readBaseState with
          siteConfig := [sc0]
          functionsExtensionVersion := m.functionsExtensionVersion
          storageAccountName := m.storageAccountName
          storageAccountKey := m.storageAccountKey
          storageUsesMSI := m.storageUsesMSI
          storageKeyVaultSecretID := m.storageKeyVaultSecretID
          builtinLogging := m.builtinLogging
          appSettings := some (m.appSettings.getD []) } := by
  have hfold := unpack_wire_shape m.appSettings
    { { readBaseState with siteConfig := [sc0] } with builtinLogging := false }
    m.functionsExtensionVersion storEntry (m.appSettings.getD []) dash content
    [] {} g d hstor hres hdash hcontent
  rw [hwire, unpack_some, hfold]
  rw [setKey_foldl_append (m.appSettings.getD []) ([] : Settings) (fun kv _ => rfl) hnd]
  simp only [List.nil_append]
  rw [hfinal]
  simp [readBaseState]

/-- Every key of a two-entry framework map misses both the user settings
(whose keys are unreserved) and the synthesized extras (whose keys differ
from the framework keys). -/
theorem lookupKey_sys_none_of (user extras : Settings) (fk fv sk sv : String)
    (hres : ∀ kv ∈ user, kv.1 ∉ reservedAppSettingKeys)
    (hfk : fk ∈ reservedAppSettingKeys) (hsk : sk ∈ reservedAppSettingKeys)
    (hexf : ∀ kv ∈ extras, fk ≠ kv.1) (hexs : ∀ kv ∈ extras, sk ≠ kv.1) :
    ∀ kv ∈ user ++ extras, lookupKey [(fk, fv), (sk, sv)] kv.1 = none := by
  intro kv hm
  rcases List.mem_append.mp hm with hmu | hme
  · have hr := hres kv hmu
    have hne1 : fk ≠ kv.1 := fun he => hr (he ▸ hfk)
    have hne2 : sk ≠ kv.1 := fun he => hr (he ▸ hsk)
    simp [lookupKey, hne1, hne2]
  · simp [lookupKey, hexf kv hme, hexs kv hme]

/-- A property holding of the three possible synthesized entries holds of
every member of the dashboard-and-content extras list. -/
theorem forall_mem_extras {P : String × String → Prop} (b1 b2 : Bool)
    (de cs cc : String × String) (hde : P de) (hcs : P cs) (hcc : P cc) :
    ∀ kv ∈ ((if b1 then [de] else []) ++ (if b2 then [cs, cc] else [])), P kv := by
  intro kv hm
  cases b1 <;> cases b2 <;> simp_all <;>
    rcases hm with rfl | rfl | rfl <;> assumption

/-- Key-distinctness of the dashboard-and-content extras list. -/
theorem pairwise_extras (b1 b2 : Bool) (de cs cc : String × String)
    (h1 : de.1 ≠ cs.1) (h2 : de.1 ≠ cc.1) (h3 : cs.1 ≠ cc.1) :
    ((if b1 then [de] else []) ++ (if b2 then [cs, cc] else [])).Pairwise
      (fun a b => a.1 ≠ b.1) := by
  cases b1 <;> cases b2 <;> simp [h1, h2, h3]

/-- The user settings and the synthesized extras have pairwise-distinct
keys when the extras' keys are reserved and pairwise distinct. -/
theorem pairwise_user_extras (user extras : Settings)
    (hnd : user.Pairwise (fun a b => a.1 ≠ b.1))
    (hres : ∀ kv ∈ user, kv.1 ∉ reservedAppSettingKeys)
    (hex : extras.Pairwise (fun a b => a.1 ≠ b.1))
    (hexres : ∀ kv ∈ extras, kv.1 ∈ reservedAppSettingKeys) :
    (user ++ extras).Pairwise (fun a b => a.1 ≠ b.1) := by
  rw [List.pairwise_append]
  exact ⟨hnd, hex, fun a ha b hb he => (hres a ha) (he ▸ hexres b hb)⟩

/-- C8: the round-trip law of the app-settings field mapper. For every valid
desired-state record, flattening (`unpackLinuxFunctionAppSettings`) the wire
settings produced by expanding the record reproduces every user-settable
field the mapper owns — extension version, the three storage modes (plain
key, Key Vault reference, managed identity), builtin logging and the
free-form settings — while the fields the API normalizes (the synthesized
content-share settings with their fresh suffix, and the nil-versus-empty
settings map) are excluded exactly as the normalization demands. -/
theorem c8_flatten_expand_roundtrip (m : SlotModel) (sc0 : SiteConfigModel)
    (endpointSuffix contentShareSuffix : String) (send : Bool)
    (hv : ValidRecord m endpointSuffix) :
    unpackLinuxFunctionAppSettings { readBaseState with siteConfig := [sc0] } m.appSettings
        (some (expandLinuxFunctionAppSettings m endpointSuffix contentShareSuffix send)) =
      { readBaseState with
          siteConfig := [sc0]
          functionsExtensionVersion := m.functionsExtensionVersion
          storageAccountName := m.storageAccountName
          storageAccountKey := m.storageAccountKey
          storageUsesMSI := m.storageUsesMSI
          storageKeyVaultSecretID := m.storageKeyVaultSecretID
          builtinLogging := m.builtinLogging
          appSettings := some (m.appSettings.getD []) } := by
  obtain ⟨hres, hnd, hn, hk, hes, hmsiC, hkvC⟩ := hv
  have hukey : ∀ s ∈ reservedAppSettingKeys, lookupKey (m.appSettings.getD []) s = none := by
    intro s hsm
    cases hl : lookupKey (m.appSettings.getD []) s with
    | none => rfl
    | some v =>
      obtain ⟨kv, hm2, hkeq⟩ := lookupKey_some_memKey _ _ _ hl
      exact absurd (hkeq ▸ hsm) (hres kv hm2)
  have h1 := hukey "AzureWebJobsDashboard" (by simp [reservedAppSettingKeys])
  have h2 := hukey "AzureWebJobsDashboard__accountName" (by simp [reservedAppSettingKeys])
  have h3 := hukey "WEBSITE_CONTENTSHARE" (by simp [reservedAppSettingKeys])
  have h4 := hukey "WEBSITE_CONTENTAZUREFILECONNECTIONSTRING" (by simp [reservedAppSettingKeys])
  have hcsF : configGetOkAppSetting m.appSettings "WEBSITE_CONTENTSHARE" = false :=
    configGetOk_of_lookup_none _ _ h3
  have hccF : configGetOkAppSetting m.appSettings
      "WEBSITE_CONTENTAZUREFILECONNECTIONSTRING" = false :=
    configGetOk_of_lookup_none _ _ h4
  have hsynth := createSynth_shape m send (createStorageString m endpointSuffix)
    contentShareSuffix h1 h2 h3 h4
  by_cases hkv : m.storageKeyVaultSecretID = ""
  · by_cases hmsi : m.storageUsesMSI = true
    · -- managed-identity storage
      have hss : createStorageString m endpointSuffix = m.storageAccountName := by
        unfold createStorageString; simp [hmsi]
      have hextras : (createSynthAppSettings m send (createStorageString m endpointSuffix)
          contentShareSuffix).getD [] =
          m.appSettings.getD [] ++
            ((if m.builtinLogging then [("AzureWebJobsDashboard__accountName", m.storageAccountName)] else []) ++
             (if send then
                [("WEBSITE_CONTENTSHARE", asciiLower m.name ++ "-" ++ contentShareSuffix),
                 ("WEBSITE_CONTENTAZUREFILECONNECTIONSTRING", createStorageString m endpointSuffix)] else [])) := by
        rw [hsynth]; simp [hmsi, List.append_assoc]
      have hwire : expandLinuxFunctionAppSettings m endpointSuffix contentShareSuffix send =
          ("FUNCTIONS_EXTENSION_VERSION", m.functionsExtensionVersion) ::
          ("AzureWebJobsStorage__accountName", createStorageString m endpointSuffix) ::
          (m.appSettings.getD [] ++
            ((if m.builtinLogging then [("AzureWebJobsDashboard__accountName", m.storageAccountName)] else []) ++
             (if send then
                [("WEBSITE_CONTENTSHARE", asciiLower m.name ++ "-" ++ contentShareSuffix),
                 ("WEBSITE_CONTENTAZUREFILECONNECTIONSTRING", createStorageString m endpointSuffix)] else []))) := by
        unfold expandLinuxFunctionAppSettings expandSiteConfigAppSettings
        rw [mergeUserAppSettings_getD, hextras]
        simp only [hmsi, if_true, ite_true, List.singleton_append]
        rw [mergeUserAppSettings_append _ _
          (lookupKey_sys_none_of _ _ _ _ _ _ hres
            (by simp [reservedAppSettingKeys]) (by simp [reservedAppSettingKeys])
            (forall_mem_extras m.builtinLogging send
              ("AzureWebJobsDashboard__accountName", m.storageAccountName)
              ("WEBSITE_CONTENTSHARE", asciiLower m.name ++ "-" ++ contentShareSuffix)
              ("WEBSITE_CONTENTAZUREFILECONNECTIONSTRING", createStorageString m endpointSuffix)
              (by simp) (by simp) (by simp))
            (forall_mem_extras m.builtinLogging send
              ("AzureWebJobsDashboard__accountName", m.storageAccountName)
              ("WEBSITE_CONTENTSHARE", asciiLower m.name ++ "-" ++ contentShareSuffix)
              ("WEBSITE_CONTENTAZUREFILECONNECTIONSTRING", createStorageString m endpointSuffix)
              (by simp) (by simp) (by simp)))
          (pairwise_user_extras _ _ hnd hres
            (pairwise_extras m.builtinLogging send
              ("AzureWebJobsDashboard__accountName", m.storageAccountName)
              ("WEBSITE_CONTENTSHARE", asciiLower m.name ++ "-" ++ contentShareSuffix)
              ("WEBSITE_CONTENTAZUREFILECONNECTIONSTRING", createStorageString m endpointSuffix)
              (by simp) (by simp) (by simp))
            (forall_mem_extras m.builtinLogging send
              ("AzureWebJobsDashboard__accountName", m.storageAccountName)
              ("WEBSITE_CONTENTSHARE", asciiLower m.name ++ "-" ++ contentShareSuffix)
              ("WEBSITE_CONTENTAZUREFILECONNECTIONSTRING", createStorageString m endpointSuffix)
              (by simp [reservedAppSettingKeys]) (by simp [reservedAppSettingKeys])
              (by simp [reservedAppSettingKeys])))]
        simp
      refine c8_master m sc0 endpointSuffix contentShareSuffix send _ _
        ("AzureWebJobsStorage__accountName", createStorageString m endpointSuffix)
        (fun mm => { mm with storageUsesMSI := true, storageAccountName := m.storageAccountName })
        (fun mm => if m.builtinLogging then { mm with builtinLogging := true } else mm)
        hres hnd hwire ?_ ?_ ?_ ?_
      · intro st
        rw [hss]
        exact unpackStep_storage_msi m.appSettings st m.storageAccountName
      · intro st
        by_cases hb : m.builtinLogging = true <;> simp [hb, unpackStep_dash_msi]
      · intro st
        by_cases hs2 : send = true <;>
          simp [hs2, unpackStep_contentshare _ _ _ hcsF, unpackStep_contentconn _ _ _ hccF]
      · by_cases hb : m.builtinLogging = true <;>
          simp [readBaseState, hb, hmsi, (hmsiC hmsi).1, (hmsiC hmsi).2]
    · -- plain storage connection string
      have hmsi0 : m.storageUsesMSI = false := by simpa using hmsi
      have hss : createStorageString m endpointSuffix = storageStringFmt m.storageAccountName m.storageAccountKey endpointSuffix := by
        unfold createStorageString; simp [hmsi0, hkv]
      have hextras : (createSynthAppSettings m send (createStorageString m endpointSuffix)
          contentShareSuffix).getD [] =
          m.appSettings.getD [] ++
            ((if m.builtinLogging then [("AzureWebJobsDashboard", createStorageString m endpointSuffix)] else []) ++
             (if send then
                [("WEBSITE_CONTENTSHARE", asciiLower m.name ++ "-" ++ contentShareSuffix),
                 ("WEBSITE_CONTENTAZUREFILECONNECTIONSTRING", createStorageString m endpointSuffix)] else [])) := by
        rw [hsynth]; simp [hmsi0, List.append_assoc]
      have hwire : expandLinuxFunctionAppSettings m endpointSuffix contentShareSuffix send =
          ("FUNCTIONS_EXTENSION_VERSION", m.functionsExtensionVersion) ::
          ("AzureWebJobsStorage", createStorageString m endpointSuffix) ::
          (m.appSettings.getD [] ++
            ((if m.builtinLogging then [("AzureWebJobsDashboard", createStorageString m endpointSuffix)] else []) ++
             (if send then
                [("WEBSITE_CONTENTSHARE", asciiLower m.name ++ "-" ++ contentShareSuffix),
                 ("WEBSITE_CONTENTAZUREFILECONNECTIONSTRING", createStorageString m endpointSuffix)] else []))) := by
        unfold expandLinuxFunctionAppSettings expandSiteConfigAppSettings
        rw [mergeUserAppSettings_getD, hextras]
        simp only [hmsi0, Bool.false_eq_true, if_false, ite_false, List.singleton_append]
        rw [mergeUserAppSettings_append _ _
          (lookupKey_sys_none_of _ _ _ _ _ _ hres
            (by simp [reservedAppSettingKeys]) (by simp [reservedAppSettingKeys])
            (forall_mem_extras m.builtinLogging send
              ("AzureWebJobsDashboard", createStorageString m endpointSuffix)
              ("WEBSITE_CONTENTSHARE", asciiLower m.name ++ "-" ++ contentShareSuffix)
              ("WEBSITE_CONTENTAZUREFILECONNECTIONSTRING", createStorageString m endpointSuffix)
              (by simp) (by simp) (by simp))
            (forall_mem_extras m.builtinLogging send
              ("AzureWebJobsDashboard", createStorageString m endpointSuffix)
              ("WEBSITE_CONTENTSHARE", asciiLower m.name ++ "-" ++ contentShareSuffix)
              ("WEBSITE_CONTENTAZUREFILECONNECTIONSTRING", createStorageString m endpointSuffix)
              (by simp) (by simp) (by simp)))
          (pairwise_user_extras _ _ hnd hres
            (pairwise_extras m.builtinLogging send
              ("AzureWebJobsDashboard", createStorageString m endpointSuffix)
              ("WEBSITE_CONTENTSHARE", asciiLower m.name ++ "-" ++ contentShareSuffix)
              ("WEBSITE_CONTENTAZUREFILECONNECTIONSTRING", createStorageString m endpointSuffix)
              (by simp) (by simp) (by simp))
            (forall_mem_extras m.builtinLogging send
              ("AzureWebJobsDashboard", createStorageString m endpointSuffix)
              ("WEBSITE_CONTENTSHARE", asciiLower m.name ++ "-" ++ contentShareSuffix)
              ("WEBSITE_CONTENTAZUREFILECONNECTIONSTRING", createStorageString m endpointSuffix)
              (by simp [reservedAppSettingKeys]) (by simp [reservedAppSettingKeys])
              (by simp [reservedAppSettingKeys])))]
        simp
      refine c8_master m sc0 endpointSuffix contentShareSuffix send _ _
        ("AzureWebJobsStorage", createStorageString m endpointSuffix)
        (fun mm => { mm with storageAccountName := m.storageAccountName, storageAccountKey := m.storageAccountKey })
        (fun mm => if m.builtinLogging then { mm with builtinLogging := true } else mm)
        hres hnd hwire ?_ ?_ ?_ ?_
      · intro st
        rw [hss]
        exact unpackStep_storage_plain m.appSettings st m.storageAccountName m.storageAccountKey endpointSuffix hn hk hes
      · intro st
        by_cases hb : m.builtinLogging = true <;> simp [hb, unpackStep_dash]
      · intro st
        by_cases hs2 : send = true <;>
          simp [hs2, unpackStep_contentshare _ _ _ hcsF, unpackStep_contentconn _ _ _ hccF]
      · by_cases hb : m.builtinLogging = true <;>
          simp [readBaseState, hb, hmsi0, hkv]
  · -- Key Vault storage reference
    obtain ⟨hname0, hkey0, hmsi0⟩ := hkvC hkv
    have hss : createStorageString m endpointSuffix = storageStringKV m.storageKeyVaultSecretID := by
      unfold createStorageString; simp [hmsi0, hkv]
    have hextras : (createSynthAppSettings m send (createStorageString m endpointSuffix)
        contentShareSuffix).getD [] =
        m.appSettings.getD [] ++
          ((if m.builtinLogging then [("AzureWebJobsDashboard", createStorageString m endpointSuffix)] else []) ++
           (if send then
              [("WEBSITE_CONTENTSHARE", asciiLower m.name ++ "-" ++ contentShareSuffix),
               ("WEBSITE_CONTENTAZUREFILECONNECTIONSTRING", createStorageString m endpointSuffix)] else [])) := by
      rw [hsynth]; simp [hmsi0, List.append_assoc]
    have hwire : expandLinuxFunctionAppSettings m endpointSuffix contentShareSuffix send =
        ("FUNCTIONS_EXTENSION_VERSION", m.functionsExtensionVersion) ::
        ("AzureWebJobsStorage", createStorageString m endpointSuffix) ::
        (m.appSettings.getD [] ++
          ((if m.builtinLogging then [("AzureWebJobsDashboard", createStorageString m endpointSuffix)] else []) ++
           (if send then
              [("WEBSITE_CONTENTSHARE", asciiLower m.name ++ "-" ++ contentShareSuffix),
               ("WEBSITE_CONTENTAZUREFILECONNECTIONSTRING", createStorageString m endpointSuffix)] else []))) := by
      unfold expandLinuxFunctionAppSettings expandSiteConfigAppSettings
      rw [mergeUserAppSettings_getD, hextras]
      simp only [hmsi0, Bool.false_eq_true, if_false, ite_false, List.singleton_append]
      rw [mergeUserAppSettings_append _ _
        (lookupKey_sys_none_of _ _ _ _ _ _ hres
          (by simp [reservedAppSettingKeys]) (by simp [reservedAppSettingKeys])
          (forall_mem_extras m.builtinLogging send
            ("AzureWebJobsDashboard", createStorageString m endpointSuffix)
            ("WEBSITE_CONTENTSHARE", asciiLower m.name ++ "-" ++ contentShareSuffix)
            ("WEBSITE_CONTENTAZUREFILECONNECTIONSTRING", createStorageString m endpointSuffix)
            (by simp) (by simp) (by simp))
          (forall_mem_extras m.builtinLogging send
            ("AzureWebJobsDashboard", createStorageString m endpointSuffix)
            ("WEBSITE_CONTENTSHARE", asciiLower m.name ++ "-" ++ contentShareSuffix)
            ("WEBSITE_CONTENTAZUREFILECONNECTIONSTRING", createStorageString m endpointSuffix)
            (by simp) (by simp) (by simp)))
        (pairwise_user_extras _ _ hnd hres
          (pairwise_extras m.builtinLogging send
            ("AzureWebJobsDashboard", createStorageString m endpointSuffix)
            ("WEBSITE_CONTENTSHARE", asciiLower m.name ++ "-" ++ contentShareSuffix)
            ("WEBSITE_CONTENTAZUREFILECONNECTIONSTRING", createStorageString m endpointSuffix)
            (by simp) (by simp) (by simp))
          (forall_mem_extras m.builtinLogging send
            ("AzureWebJobsDashboard", createStorageString m endpointSuffix)
            ("WEBSITE_CONTENTSHARE", asciiLower m.name ++ "-" ++ contentShareSuffix)
            ("WEBSITE_CONTENTAZUREFILECONNECTIONSTRING", createStorageString m endpointSuffix)
            (by simp [reservedAppSettingKeys]) (by simp [reservedAppSettingKeys])
            (by simp [reservedAppSettingKeys])))]
      simp
    refine c8_master m sc0 endpointSuffix contentShareSuffix send _ _
      ("AzureWebJobsStorage", createStorageString m endpointSuffix)
      (fun mm => { mm with storageKeyVaultSecretID := m.storageKeyVaultSecretID })
      (fun mm => if m.builtinLogging then { mm with builtinLogging := true } else mm)
      hres hnd hwire ?_ ?_ ?_ ?_
    · intro st
      rw [hss]
      exact unpackStep_storage_kv m.appSettings st m.storageKeyVaultSecretID
    · intro st
      by_cases hb : m.builtinLogging = true <;> simp [hb, unpackStep_dash]
    · intro st
      by_cases hs2 : send = true <;>
        simp [hs2, unpackStep_contentshare _ _ _ hcsF, unpackStep_contentconn _ _ _ hccF]
    · by_cases hb : m.builtinLogging = true <;>
        simp [readBaseState, hb, hmsi0, hname0, hkey0]

/-- Concrete record for the C8 witness: plain storage with a free-form user
setting and builtin logging on. -/
def c8Record : SlotModel :=
  { storageAccountName := "acct", storageAccountKey := "key1",
    appSettings := some [("FOO", "bar")], builtinLogging := true, siteConfig := [{}] }

/-- Witness for C8 at a concrete record: flattening the expanded wire
settings gives back the record's user-settable fields. -/
theorem c8_flatten_expand_roundtrip_witness :
    unpackLinuxFunctionAppSettings { readBaseState with siteConfig := [{}] }
        c8Record.appSettings
        (some (expandLinuxFunctionAppSettings c8Record "core.windows.net" "ab12" true)) =
      { readBaseState with
          siteConfig := [{}]
          functionsExtensionVersion := "~4"
          storageAccountName := "acct"
          storageAccountKey := "key1"
          storageUsesMSI := false
          storageKeyVaultSecretID := ""
          builtinLogging := true
          appSettings := some [("FOO", "bar")] } :=
  c8_flatten_expand_roundtrip c8Record {} "core.windows.net" "ab12" true
    (by refine ⟨?_, ?_, ?_, ?_, ?_, ?_, ?_⟩ <;> decide)
